import Mathlib

/-!
Verification development for the attention-visualizer numeric core
(`src/components/AttentionVisualizer.js`).

Modelling conventions:
* JS strings are lists of Unicode scalar values (`List Char`); where UTF-16
  code-unit semantics matter (`String.prototype.length`, `charCodeAt`) they are
  modelled explicitly (`jsLength`, `jsCharCodeAt0`).
* JS numbers are idealized as real numbers; `Math.round x` is `⌊x + 1/2⌋`
  (JS rounds half toward positive infinity).  A NaN-faithful model of the
  matrix-multiply helper, where an out-of-range index read produces
  `none` (undefined/NaN) and arithmetic propagates it, is given separately
  (`matMulJS`) for the dimension-mismatch claims.
* `generateAttentionStory` only performs field arithmetic and comparisons, so
  it is modelled over `ℚ` (every JS float is rational), keeping it executable.
-/

namespace AttentionViz

/-- JS `Math.round` on reals: floor of `x + 1/2` (half rounds toward `+∞`). -/
noncomputable def jsRound (x : ℝ) : ℤ := ⌊x + 1/2⌋

/-- `Math.round(val * 100) / 100`, the two-decimal rounding used by the
embedder, the matrix multiply and the score scaling. -/
noncomputable def round2 (x : ℝ) : ℝ := (jsRound (x * 100) : ℝ) / 100

/-- `Math.round(x / sum * 1000) / 1000`, the three-decimal rounding used by the
softmax. -/
noncomputable def round3 (x : ℝ) : ℝ := (jsRound (x * 1000) : ℝ) / 1000

/-- Round half away from zero at the hundredths digit, following the words of
the spec (section 4.2); compared against the `Math.round`-based `round2`. -/
noncomputable def hafzRound2 (x : ℝ) : ℝ :=
  if 0 ≤ x then (⌊x * 100 + 1/2⌋ : ℝ) / 100 else -((⌊-(x * 100) + 1/2⌋ : ℝ) / 100)

/-- The whitespace characters stripped by `String.prototype.trim`: the
ECMAScript WhiteSpace set (tab, vertical tab, form feed, and every
Space_Separator code point: space, no-break space U+00A0, ogham space mark
U+1680, the en-quad block U+2000..U+200A, narrow no-break space U+202F,
medium mathematical space U+205F, ideographic space U+3000, plus the BOM
U+FEFF) together with the LineTerminator set (line feed, carriage return,
line separator U+2028, paragraph separator U+2029). -/
def jsWhitespace (c : Char) : Bool :=
  c == ' ' || c == '\t' || c == '\n' || c == '\r' || c.toNat == 11 ||
  c.toNat == 12 || c.toNat == 160 || c.toNat == 5760 ||
  (8192 ≤ c.toNat && c.toNat ≤ 8202) || c.toNat == 8232 ||
  c.toNat == 8233 || c.toNat == 8239 || c.toNat == 8287 ||
  c.toNat == 12288 || c.toNat == 65279

/-- `inputText.trim()`: strip JS whitespace from both ends. -/
def jsTrim (s : List Char) : List Char :=
  ((s.dropWhile jsWhitespace).reverse.dropWhile jsWhitespace).reverse

/-- JS `str.split(' ')`: split on the space character only, keeping empty
fragments (so `"".split(' ')` is `[""]` and `"a  b".split(' ')` is
`["a", "", "b"]`). -/
def splitOnSpace : List Char → List (List Char)
  | [] => [[]]
  | c :: cs =>
    if c = ' ' then [] :: splitOnSpace cs
    else
      match splitOnSpace cs with
      | [] => [[c]]
      | t :: r => (c :: t) :: r

/-- `const tokens = inputText.trim().split(' ').filter(t => t.length > 0)`. -/
def tokens (s : List Char) : List (List Char) :=
  (splitOnSpace (jsTrim s)).filter (fun t => !t.isEmpty)

/-- JS `str.length`: the number of UTF-16 code units (an astral character
counts as two). -/
def jsLength (t : List Char) : ℕ :=
  (t.map (fun c => if c.toNat < 65536 then 1 else 2)).sum

/-- JS `str.charCodeAt(0)`: the first UTF-16 code unit; for an astral first
character this is its high surrogate.  `charCodeAt(0)` of the empty string is
NaN in JS; the tokenizer never yields empty tokens, and we use 0 there. -/
def jsCharCodeAt0 (t : List Char) : ℕ :=
  match t with
  | [] => 0
  | c :: _ => if c.toNat < 65536 then c.toNat else 55296 + (c.toNat - 65536) / 1024

/-- One row of the embedder: the `base` vector of
`[Math.sin(i*0.5)*0.8+0.2, Math.cos(i*0.3)*0.6+0.4, token.length*0.1,
(token.charCodeAt(0)%10)*0.1]` with every entry rounded to two decimals. -/
noncomputable def embedRow (t : List Char) (i : ℕ) : List ℝ :=
  [round2 (Real.sin (i * 0.5) * 0.8 + 0.2),
   round2 (Real.cos (i * 0.3) * 0.6 + 0.4),
   round2 (jsLength t * 0.1),
   round2 (((jsCharCodeAt0 t % 10 : ℕ) : ℝ) * 0.1)]

/-- Helper realizing `tokens.map((token, i) => ...)`: map with the position. -/
noncomputable def embedAux (i : ℕ) : List (List Char) → List (List ℝ)
  | [] => []
  | t :: ts => embedRow t i :: embedAux (i + 1) ts

/-- `const embeddings = tokens.length > 0 ? tokens.map((token, i) => ...) : []`. -/
noncomputable def embeddings (toks : List (List Char)) : List (List ℝ) :=
  if 0 < toks.length then embedAux 0 toks else []

/-- Follows the words of the spec (section 4.2 and claim C2): the embedder
formula with `length(token)` read as the number of characters,
`codepoint(token[0])` as the first character code point, and
round-half-away-from-zero at the hundredths digit. -/
noncomputable def specEmbedRow (t : List Char) (i : ℕ) : List ℝ :=
  [hafzRound2 (Real.sin (i * 0.5) * 0.8 + 0.2),
   hafzRound2 (Real.cos (i * 0.3) * 0.6 + 0.4),
   hafzRound2 (t.length * 0.1),
   hafzRound2 ((((t.headD ' ').toNat % 10 : ℕ) : ℝ) * 0.1)]

/-- Fixed weight matrix `WQ` (4 × 2). -/
noncomputable def WQ : List (List ℝ) := [[0.5, -0.3], [0.2, 0.8], [-0.4, 0.6], [0.7, -0.1]]

/-- Fixed weight matrix `WK` (4 × 2). -/
noncomputable def WK : List (List ℝ) := [[0.3, 0.9], [-0.2, 0.4], [0.8, -0.5], [0.1, 0.7]]

/-- Fixed weight matrix `WV` (4 × 2). -/
noncomputable def WV : List (List ℝ) := [[0.6, 0.2], [0.4, -0.8], [-0.3, 0.5], [0.9, 0.1]]

/-- The inner loop of `matMul`: `for k in 0..B.length, result[i][j] += A[i][k]*B[k][j]`,
with out-of-range reads taken as 0 here (the pipeline only multiplies matrices
whose row length is at least `B.length`; `matMulJS` below keeps JS NaN
semantics for the general case). -/
noncomputable def dotRow (r : List ℝ) (B : List (List ℝ)) (j : ℕ) : ℝ :=
  ∑ k ∈ Finset.range B.length, r.getD k 0 * (B.getD k []).getD j 0

/-- The `matMul(A, B)` helper: guard returning `[]` when either operand is
empty (`!A.length`, `!B.length`, and `!A[0]`/`!B[0]` which in JS are falsy
exactly when the matrix is empty), then an `A.length × B[0].length` result,
every entry rounded to two decimals. -/
noncomputable def matMul (A B : List (List ℝ)) : List (List ℝ) :=
  if A.length = 0 ∨ B.length = 0 then []
  else A.map (fun r => (List.range (B.headD []).length).map (fun j => round2 (dotRow r B j)))

/-- `K[0].map((_, i) => K.map(row => row[i]))`: the transpose built from the
columns of `K`, one per index of the first row. -/
noncomputable def transposeJS (M : List (List ℝ)) : List (List ℝ) :=
  (List.range (M.headD []).length).map (fun i => M.map (fun row => row.getD i 0))

/-- `const Q = embeddings.length > 0 ? matMul(embeddings, WQ) : []`. -/
noncomputable def Q (s : List Char) : List (List ℝ) :=
  if 0 < (embeddings (tokens s)).length then matMul (embeddings (tokens s)) WQ else []

/-- `const K = embeddings.length > 0 ? matMul(embeddings, WK) : []`. -/
noncomputable def K (s : List Char) : List (List ℝ) :=
  if 0 < (embeddings (tokens s)).length then matMul (embeddings (tokens s)) WK else []

/-- `const V = embeddings.length > 0 ? matMul(embeddings, WV) : []`. -/
noncomputable def V (s : List Char) : List (List ℝ) :=
  if 0 < (embeddings (tokens s)).length then matMul (embeddings (tokens s)) WV else []

/-- `const scores = Q.length > 0 && K.length > 0 && K[0] ? matMul(Q, Kᵀ) : []`
(`K[0]` is an array whenever `K` is nonempty, and any array is truthy). -/
noncomputable def scores (s : List Char) : List (List ℝ) :=
  if 0 < (Q s).length ∧ 0 < (K s).length then matMul (Q s) (transposeJS (K s)) else []

/-- `scores.map(row => row.map(val => Math.round(val / Math.sqrt(dK) * 100) / 100))`
with `dK = 2`, guarded by `scores.length > 0`. -/
noncomputable def scaledScores (s : List Char) : List (List ℝ) :=
  if 0 < (scores s).length then
    (scores s).map (fun row => row.map (fun v => round2 (v / Real.sqrt 2))) else []

/-- The `softmax` helper: empty row for an empty row, otherwise subtract the
row maximum, exponentiate, divide by the sum, round each entry to three
decimals. -/
noncomputable def softmax (arr : List ℝ) : List ℝ :=
  match arr with
  | [] => []
  | a :: t =>
    let m := t.foldl max a
    let ex := (a :: t).map (fun x => Real.exp (x - m))
    let s := ex.foldl (· + ·) 0
    ex.map (fun x => round3 (x / s))

/-- `const attentionWeights = scaledScores.length > 0 ? scaledScores.map(row => softmax(row)) : []`. -/
noncomputable def attentionWeights (s : List Char) : List (List ℝ) :=
  if 0 < (scaledScores s).length then (scaledScores s).map softmax else []

/-- `const output = attentionWeights.length > 0 ? matMul(attentionWeights, V) : []`. -/
noncomputable def output (s : List Char) : List (List ℝ) :=
  if 0 < (attentionWeights s).length then matMul (attentionWeights s) (V s) else []

/-- A JS numeric value for the NaN-faithful model: `none` stands for
NaN (and for the result of arithmetic on `undefined`). -/
def JsNum := Option ℝ

/-- JS addition: NaN-absorbing. -/
def jsAdd : JsNum → JsNum → JsNum
  | some a, some b => some (a + b)
  | _, _ => none

/-- JS multiplication: NaN-absorbing (the pipeline never multiplies 0 by an
undefined read, so the `0 * NaN = NaN` rule is kept faithfully). -/
def jsMul : JsNum → JsNum → JsNum
  | some a, some b => some (a * b)
  | _, _ => none

/-- `A[i][k]` style indexing: out of range gives `undefined`, which any
arithmetic turns into NaN, so `none`. -/
def jsIdx (r : List JsNum) (k : ℕ) : JsNum := (r.get? k).getD none

/-- `Math.round(val*100)/100` lifted to JS numbers; `Math.round NaN` is NaN. -/
noncomputable def jsRound2n (x : JsNum) : JsNum := Option.map round2 x

/-- The NaN-faithful model of `matMul(A, B)`: same guard as `matMul`, result
shape `A.length × B[0].length`, inner loop `result[i][j] += A[i][k] * B[k][j]`
for `k < B.length` with JS `undefined`/NaN semantics, then two-decimal
rounding of every entry. -/
noncomputable def matMulJS (A B : List (List JsNum)) : List (List JsNum) :=
  if A.length = 0 ∨ B.length = 0 then []
  else A.map (fun r =>
    (List.range (B.headD []).length).map (fun j =>
      jsRound2n ((List.range B.length).foldl
        (fun acc k => jsAdd acc (jsMul (jsIdx r k) (jsIdx ((B.get? k).getD []) j)))
        (some 0))))

/-! The attention-story generator (`generateAttentionStory`).  It only uses
field arithmetic and comparisons on the weights, so it is modelled over `ℚ`
and stays executable. -/

/-- An element of the `sortedAttention` array: `{ weight, idx, token }`. -/
structure AttnEntry where
  weight : ℚ
  idx : ℕ
  token : List Char
deriving DecidableEq

instance : Inhabited AttnEntry := ⟨⟨0, 0, []⟩⟩

/-- The literal `'unknown'`. -/
def unknownTok : List Char := "unknown".toList

/-- `Math.round(q)` over the rationals. -/
def jsRoundQ (q : ℚ) : ℤ := ⌊q + 1/2⌋

/-- Decimal digits of a natural number, via explicit fuel so that kernel
reduction works. -/
def natDigitsAux : ℕ → ℕ → List Char
  | 0, _ => []
  | fuel + 1, n =>
    if n < 10 then [Char.ofNat (48 + n)]
    else natDigitsAux fuel (n / 10) ++ [Char.ofNat (48 + n % 10)]

/-- JS decimal rendering of a natural number. -/
def natToChars (n : ℕ) : List Char := natDigitsAux (n + 1) n

/-- JS decimal rendering of an integer (template-literal interpolation). -/
def intToChars (i : ℤ) : List Char :=
  if i < 0 then '-' :: natToChars i.natAbs else natToChars i.toNat

/-- The interpolation `${Math.round(weight * 100)}`. -/
def percentChars (w : ℚ) : List Char := intToChars (jsRoundQ (w * 100))

/-- `allTokens[idx] || 'unknown'`: out-of-range access gives `undefined` and
the empty string is falsy, both replaced by `'unknown'`. -/
def entryAtTok (allTokens : List (List Char)) (idx : ℕ) : List Char :=
  match allTokens.get? idx with
  | none => unknownTok
  | some t => if t = [] then unknownTok else t

/-- `attentionRow.map((weight, idx) => ({ weight: weight || 0, idx, token:
allTokens[idx] || 'unknown' }))`; `weight || 0` is the identity on rational
weights (it only rewrites NaN/`-0`). -/
def mkEntries (allTokens : List (List Char)) (row : List ℚ) : List AttnEntry :=
  row.enum.map (fun p => { weight := p.2, idx := p.1, token := entryAtTok allTokens p.1 })

/-- `.filter(item => item.token !== 'unknown')`. -/
def validEntries (allTokens : List (List Char)) (row : List ℚ) : List AttnEntry :=
  (mkEntries allTokens row).filter (fun e => !(e.token == unknownTok))

/-- Stable insertion for the descending-by-weight sort: an element moves ahead
of the existing ones only when its weight is strictly larger, which is exactly
the stable behaviour of `Array.prototype.sort` with `(a, b) => b.weight - a.weight`. -/
def insertDesc (e : AttnEntry) : List AttnEntry → List AttnEntry
  | [] => [e]
  | x :: xs => if x.weight ≤ e.weight then e :: x :: xs else x :: insertDesc e xs

/-- Stable sort by descending weight (`.sort((a, b) => b.weight - a.weight)`;
JS array sort is stable). -/
def sortDesc : List AttnEntry → List AttnEntry
  | [] => []
  | x :: xs => insertDesc x (sortDesc xs)

/-- The placeholder sentence returned for empty or degenerate rows. -/
def placeholderStory (word : List Char) : List Char :=
  ('"' :: word) ++ ('"' :: " is still calculating its attention patterns...".toList)

/-- The sentence used when the top entry is the word itself. -/
def selfStory (word : List Char) (t0 t1 : AttnEntry) : List Char :=
  ('"' :: word) ++ ('"' :: " is mostly focused on itself (".toList) ++
    percentChars t0.weight ++ "%), but also pays some attention to \"".toList ++
    t1.token ++ ('"' :: " (".toList) ++ percentChars t1.weight ++ "%).".toList

/-- The sentence used when the top entry is another token. -/
def otherStory (word : List Char) (t0 t1 : AttnEntry) : List Char :=
  ('"' :: word) ++ ('"' :: " is most interested in \"".toList) ++ t0.token ++
    ('"' :: " (".toList) ++ percentChars t0.weight ++
    "% of its attention), followed by \"".toList ++ t1.token ++
    ('"' :: " (".toList) ++ percentChars t1.weight ++ "%).".toList

/-- `generateAttentionStory(word, allTokens, attentionRow, wordIndex)`:
`sortDesc (validEntries ...)` is the `sortedAttention` array, its `take 3` the
`topAttention` array, and the sentence uses `topAttention[0]` and
`topAttention[1]`. -/
def generateAttentionStory (word : List Char) (allTokens : List (List Char))
    (attentionRow : List ℚ) (wordIndex : ℕ) : List Char :=
  if attentionRow.length = 0 ∨ allTokens.length = 0 then placeholderStory word
  else
    if (sortDesc (validEntries allTokens attentionRow)).length < 2 then placeholderStory word
    else
      if (((sortDesc (validEntries allTokens attentionRow)).take 3).headD default).idx =
          wordIndex then
        selfStory word (((sortDesc (validEntries allTokens attentionRow)).take 3).headD default)
          ((((sortDesc (validEntries allTokens attentionRow)).take 3).drop 1).headD default)
      else
        otherStory word (((sortDesc (validEntries allTokens attentionRow)).take 3).headD default)
          ((((sortDesc (validEntries allTokens attentionRow)).take 3).drop 1).headD default)

/-! Concrete inputs used by the claim analyses. -/

/-- The ranking order promised by the spec: strictly larger weight first, ties
broken by original index ascending. -/
def storyOrd (a b : AttnEntry) : Prop :=
  b.weight < a.weight ∨ (a.weight = b.weight ∧ a.idx < b.idx)

/-- Token 0: `fffffffffff` (length 11, `f` = 102). -/
def ceTok0 : List Char := List.replicate 11 'f'

/-- Token 1: 19 `g` (`g` = 103). -/
def ceTok1 : List Char := List.replicate 19 'g'

/-- Token 2: 25 `h` (`h` = 104). -/
def ceTok2 : List Char := List.replicate 25 'h'

/-- Token 3: 25 `g`. -/
def ceTok3 : List Char := List.replicate 25 'g'

/-- Token 4: 24 `h`. -/
def ceTok4 : List Char := List.replicate 24 'h'

/-- Token 5: 18 `h`. -/
def ceTok5 : List Char := List.replicate 18 'h'

/-- The counterexample input text: the six tokens joined by single spaces. -/
def ceInput : List Char :=
  ceTok0 ++ [' '] ++ ceTok1 ++ [' '] ++ ceTok2 ++ [' '] ++ ceTok3 ++ [' '] ++
    ceTok4 ++ [' '] ++ ceTok5

/-- A single-character astral token (U+1F600), whose UTF-16 length is 2 and
whose first code unit is the high surrogate 55357. -/
def emojiTok : List Char := [Char.ofNat 128512]

/-! Rounding lemmas. -/

theorem jsRound_eq {x : ℝ} {k : ℤ} (h1 : (k : ℝ) ≤ x + 1/2) (h2 : x + 1/2 < k + 1) :
    jsRound x = k := by
  unfold jsRound
  exact Int.floor_eq_iff.mpr ⟨h1, by exact_mod_cast h2⟩

theorem round2_eq {x : ℝ} {k : ℤ} (h1 : (k : ℝ) ≤ x * 100 + 1/2) (h2 : x * 100 + 1/2 < k + 1) :
    round2 x = (k : ℝ) / 100 := by
  unfold round2
  rw [jsRound_eq h1 h2]

theorem round3_eq {x : ℝ} {k : ℤ} (h1 : (k : ℝ) ≤ x * 1000 + 1/2) (h2 : x * 1000 + 1/2 < k + 1) :
    round3 x = (k : ℝ) / 1000 := by
  unfold round3
  rw [jsRound_eq h1 h2]

theorem round2_zero : round2 0 = 0 := by
  rw [round2_eq (k := 0) (by norm_num) (by norm_num)]
  norm_num

theorem round3_err (x : ℝ) : |round3 x - x| ≤ 1/2000 := by
  unfold round3 jsRound
  have h1 := Int.floor_le (x * 1000 + 1/2)
  have h2 := Int.lt_floor_add_one (x * 1000 + 1/2)
  rw [abs_le]
  constructor <;> linarith

theorem round3_nonneg {x : ℝ} (hx : 0 ≤ x) : 0 ≤ round3 x := by
  unfold round3 jsRound
  have h : (0 : ℤ) ≤ ⌊x * 1000 + 1/2⌋ := Int.floor_nonneg.mpr (by linarith)
  have h2 : (0 : ℝ) ≤ (⌊x * 1000 + 1/2⌋ : ℝ) := by exact_mod_cast h
  linarith

theorem round3_le_one {x : ℝ} (hx : x ≤ 1) : round3 x ≤ 1 := by
  unfold round3 jsRound
  have h : ⌊x * 1000 + 1/2⌋ < (1001 : ℤ) := Int.floor_lt.mpr (by push_cast; linarith)
  have h2 : ((⌊x * 1000 + 1/2⌋ : ℤ) : ℝ) ≤ 1000 := by exact_mod_cast Int.lt_add_one_iff.mp h
  linarith

theorem round2_idem (x : ℝ) : round2 (round2 x) = round2 x := by
  unfold round2
  congr 1
  rw [jsRound_eq (k := jsRound (x * 100)) (by rw [div_mul_cancel₀] <;> norm_num)
    (by rw [div_mul_cancel₀] <;> norm_num)]

theorem round2_eq_hafz {x : ℝ} (hx : 0 ≤ x) : round2 x = hafzRound2 x := by
  unfold round2 hafzRound2 jsRound
  rw [if_pos (by linarith)]

/-! List helper lemmas. -/

theorem foldl_add_eq (l : List ℝ) (x : ℝ) : l.foldl (· + ·) x = x + l.sum := by
  induction l generalizing x with
  | nil => simp
  | cons a t ih => simp [ih, add_assoc]

theorem foldl_max_map_add (c : ℝ) (l : List ℝ) (a : ℝ) :
    (l.map (fun v => v + c)).foldl max (a + c) = l.foldl max a + c := by
  induction l generalizing a with
  | nil => simp
  | cons x xs ih => simpa [← max_add_add_right] using ih (max a x)

theorem sum_map_div (l : List ℝ) (c : ℝ) : (l.map (fun e => e / c)).sum = l.sum / c := by
  induction l with
  | nil => simp
  | cons a t ih => simp [ih, add_div]

theorem sum_map_round3_err (l : List ℝ) :
    |(l.map round3).sum - l.sum| ≤ l.length * (1/2000) := by
  induction l with
  | nil => simp
  | cons a t ih =>
    have h := round3_err a
    have htri : |(round3 a + (t.map round3).sum) - (a + t.sum)| ≤
        |round3 a - a| + |(t.map round3).sum - t.sum| := by
      have := abs_add (round3 a - a) ((t.map round3).sum - t.sum)
      calc |(round3 a + (t.map round3).sum) - (a + t.sum)|
          = |(round3 a - a) + ((t.map round3).sum - t.sum)| := by ring_nf
        _ ≤ _ := this
    simp only [List.map_cons, List.sum_cons, List.length_cons]
    push_cast
    calc |round3 a + (t.map round3).sum - (a + t.sum)|
        ≤ |round3 a - a| + |(t.map round3).sum - t.sum| := htri
      _ ≤ 1/2000 + t.length * (1/2000) := by gcongr
      _ = (t.length + 1) * (1/2000) := by ring

/-! Shape lemmas for the pipeline. -/

@[simp] theorem embedAux_nil (i : ℕ) : embedAux i [] = [] := rfl

@[simp] theorem embedAux_cons (i : ℕ) (t : List Char) (ts : List (List Char)) :
    embedAux i (t :: ts) = embedRow t i :: embedAux (i + 1) ts := rfl

theorem embedAux_length (i : ℕ) (l : List (List Char)) :
    (embedAux i l).length = l.length := by
  induction l generalizing i with
  | nil => rfl
  | cons t ts ih => simp [ih]

theorem embedAux_get? (l : List (List Char)) (i k : ℕ) :
    (embedAux i l).get? k = (l.get? k).map (fun t => embedRow t (i + k)) := by
  induction l generalizing i k with
  | nil => simp
  | cons t ts ih =>
    cases k with
    | zero => simp
    | succ k =>
      have hidx : i + (k + 1) = (i + 1) + k := by omega
      rw [hidx, embedAux_cons]
      simpa using ih (i + 1) k

theorem embeddings_length (toks : List (List Char)) :
    (embeddings toks).length = toks.length := by
  unfold embeddings
  split
  · exact embedAux_length 0 toks
  · simp only [List.length_nil]
    omega

theorem embeddings_get? (toks : List (List Char)) (k : ℕ) (h : 0 < toks.length) :
    (embeddings toks).get? k = (toks.get? k).map (fun t => embedRow t k) := by
  unfold embeddings
  rw [if_pos h, embedAux_get? toks 0 k]
  have hfun : (fun t => embedRow t (0 + k)) = (fun t => embedRow t k) := by
    funext t
    rw [Nat.zero_add]
  rw [hfun]

theorem embedRow_length (t : List Char) (i : ℕ) : (embedRow t i).length = 4 := rfl

theorem embedAux_mem_length {l : List (List Char)} {i : ℕ} {r : List ℝ}
    (h : r ∈ embedAux i l) : r.length = 4 := by
  induction l generalizing i with
  | nil => simp at h
  | cons t ts ih =>
    rw [embedAux_cons, List.mem_cons] at h
    rcases h with h | h
    · rw [h]; rfl
    · exact ih h

theorem mem_embeddings_length {toks : List (List Char)} {r : List ℝ}
    (h : r ∈ embeddings toks) : r.length = 4 := by
  unfold embeddings at h
  split at h
  · exact embedAux_mem_length h
  · simp at h

theorem headD_mem {α : Type} {l : List α} (d : α) (h : l ≠ []) : l.headD d ∈ l := by
  cases l with
  | nil => exact absurd rfl h
  | cons a t => simp

theorem matMul_length {A B : List (List ℝ)} (hA : A.length ≠ 0) (hB : B.length ≠ 0) :
    (matMul A B).length = A.length := by
  unfold matMul
  rw [if_neg (by tauto)]
  simp

theorem matMul_get? {A B : List (List ℝ)} (hA : A.length ≠ 0) (hB : B.length ≠ 0) (i : ℕ) :
    (matMul A B).get? i =
      (A.get? i).map
        (fun r => (List.range (B.headD []).length).map (fun j => round2 (dotRow r B j))) := by
  unfold matMul
  rw [if_neg (by tauto), List.get?_map]

theorem mem_matMul_length {A B : List (List ℝ)} :
    ∀ {r : List ℝ}, r ∈ matMul A B → r.length = (B.headD []).length := by
  intro r h
  unfold matMul at h
  split at h
  · simp at h
  · obtain ⟨q, _, rfl⟩ := List.mem_map.mp h
    simp

theorem transposeJS_length (M : List (List ℝ)) :
    (transposeJS M).length = (M.headD []).length := by
  simp [transposeJS]

theorem transposeJS_get? (M : List (List ℝ)) (k : ℕ) (h : k < (M.headD []).length) :
    (transposeJS M).get? k = some (M.map (fun row => row.getD k 0)) := by
  unfold transposeJS
  rw [List.get?_map, List.get?_range h]
  rfl

theorem transposeJS_headD (M : List (List ℝ)) (h : 0 < (M.headD []).length) :
    (transposeJS M).headD [] = M.map (fun row => row.getD 0 0) := by
  unfold transposeJS
  cases hn : (M.headD []).length with
  | zero => omega
  | succ k => rw [List.range_succ_eq_map]; simp

/-! Softmax lemmas. -/

theorem softmax_cons (a : ℝ) (t : List ℝ) :
    softmax (a :: t) =
      ((a :: t).map (fun x => Real.exp (x - t.foldl max a))).map
        (fun x =>
          round3 (x / ((a :: t).map (fun x => Real.exp (x - t.foldl max a))).foldl (· + ·) 0)) :=
  rfl

theorem softmax_length (x : List ℝ) : (softmax x).length = x.length := by
  cases x with
  | nil => rfl
  | cons a t => rw [softmax_cons]; simp

theorem softmax_bounds (x : List ℝ) (hx : x ≠ []) :
    (∀ e ∈ softmax x, 0 ≤ e ∧ e ≤ 1) ∧ |(softmax x).sum - 1| ≤ x.length * (1/2000) := by
  obtain ⟨a, t, rfl⟩ := List.exists_cons_of_ne_nil hx
  rw [softmax_cons]
  set m := t.foldl max a with hm
  set ex := (a :: t).map (fun x => Real.exp (x - m)) with hex
  have hexpos : ∀ e ∈ ex, 0 < e := by
    intro e he
    rw [hex] at he
    obtain ⟨y, _, rfl⟩ := List.mem_map.mp he
    exact Real.exp_pos _
  have hexne : ex ≠ [] := by rw [hex]; simp
  have hsum_pos : 0 < ex.sum := List.sum_pos ex hexpos hexne
  have hs : ex.foldl (· + ·) 0 = ex.sum := by rw [foldl_add_eq]; ring
  have hlen0 : ex.length = (a :: t).length := by rw [hex]; simp
  clear_value m ex
  rw [hs]
  constructor
  · intro e he
    obtain ⟨y, hy, rfl⟩ := List.mem_map.mp he
    have hy0 : 0 < y := hexpos y hy
    have hy1 : y ≤ ex.sum := List.single_le_sum (fun z hz => (hexpos z hz).le) y hy
    refine ⟨round3_nonneg (by positivity), round3_le_one ?_⟩
    rw [div_le_one hsum_pos]
    exact hy1
  · have hmap : ex.map (fun y => round3 (y / ex.sum)) =
        (ex.map (fun y => y / ex.sum)).map round3 := by
      rw [List.map_map]
      rfl
    rw [hmap]
    have h1 : (ex.map (fun y => y / ex.sum)).sum = 1 := by
      rw [sum_map_div, div_self hsum_pos.ne']
    have h2 := sum_map_round3_err (ex.map (fun y => y / ex.sum))
    rw [h1] at h2
    have hlen : (ex.map (fun y => y / ex.sum)).length = (a :: t).length := by
      rw [List.length_map, hlen0]
    rw [hlen] at h2
    exact h2

theorem softmax_shift (x : List ℝ) (c : ℝ) :
    softmax (x.map (fun v => v + c)) = softmax x := by
  cases x with
  | nil => rfl
  | cons a t =>
    rw [List.map_cons, softmax_cons, softmax_cons, foldl_max_map_add]
    have hex : ((a + c) :: t.map (fun v => v + c)).map
          (fun x => Real.exp (x - (t.foldl max a + c)))
        = (a :: t).map (fun x => Real.exp (x - t.foldl max a)) := by
      simp only [List.map_cons, List.map_map]
      congr 1
      · congr 1
        ring
      · congr 1
        funext v
        simp only [Function.comp]
        congr 1
        ring
    rw [hex]

/-! Pipeline shape lemmas. -/

theorem Q_eq (s : List Char) (h : 0 < (tokens s).length) :
    Q s = matMul (embeddings (tokens s)) WQ := by
  unfold Q
  rw [if_pos (by rw [embeddings_length]; exact h)]

theorem K_eq (s : List Char) (h : 0 < (tokens s).length) :
    K s = matMul (embeddings (tokens s)) WK := by
  unfold K
  rw [if_pos (by rw [embeddings_length]; exact h)]

theorem V_eq (s : List Char) (h : 0 < (tokens s).length) :
    V s = matMul (embeddings (tokens s)) WV := by
  unfold V
  rw [if_pos (by rw [embeddings_length]; exact h)]

theorem Q_length (s : List Char) (h : 0 < (tokens s).length) :
    (Q s).length = (tokens s).length := by
  rw [Q_eq s h, matMul_length (by rw [embeddings_length]; omega) (by simp [WQ]),
    embeddings_length]

theorem K_length (s : List Char) (h : 0 < (tokens s).length) :
    (K s).length = (tokens s).length := by
  rw [K_eq s h, matMul_length (by rw [embeddings_length]; omega) (by simp [WK]),
    embeddings_length]

theorem Q_row_length {s : List Char} {r : List ℝ} (h : 0 < (tokens s).length)
    (hr : r ∈ Q s) : r.length = 2 := by
  rw [Q_eq s h] at hr
  simpa [WQ] using mem_matMul_length hr

theorem K_row_length {s : List Char} {r : List ℝ} (h : 0 < (tokens s).length)
    (hr : r ∈ K s) : r.length = 2 := by
  rw [K_eq s h] at hr
  simpa [WK] using mem_matMul_length hr

theorem K_ne_nil (s : List Char) (h : 0 < (tokens s).length) : K s ≠ [] := by
  rw [← List.length_pos, K_length s h]
  exact h

theorem K_headD_length (s : List Char) (h : 0 < (tokens s).length) :
    ((K s).headD []).length = 2 :=
  K_row_length h (headD_mem [] (K_ne_nil s h))

theorem KT_length (s : List Char) (h : 0 < (tokens s).length) :
    (transposeJS (K s)).length = 2 := by
  rw [transposeJS_length, K_headD_length s h]

theorem KT_headD_length (s : List Char) (h : 0 < (tokens s).length) :
    ((transposeJS (K s)).headD []).length = (tokens s).length := by
  rw [transposeJS_headD _ (by rw [K_headD_length s h]; omega), List.length_map, K_length s h]

theorem scores_eq (s : List Char) (h : 0 < (tokens s).length) :
    scores s = matMul (Q s) (transposeJS (K s)) := by
  unfold scores
  rw [if_pos ⟨by rw [Q_length s h]; exact h, by rw [K_length s h]; exact h⟩]

theorem scores_length (s : List Char) (h : 0 < (tokens s).length) :
    (scores s).length = (tokens s).length := by
  rw [scores_eq s h, matMul_length (by rw [Q_length s h]; omega) (by rw [KT_length s h]; omega),
    Q_length s h]

theorem scores_row_length {s : List Char} {r : List ℝ} (h : 0 < (tokens s).length)
    (hr : r ∈ scores s) : r.length = (tokens s).length := by
  rw [scores_eq s h] at hr
  rw [mem_matMul_length hr, KT_headD_length s h]

theorem scaledScores_eq (s : List Char) (h : 0 < (tokens s).length) :
    scaledScores s = (scores s).map (fun row => row.map (fun v => round2 (v / Real.sqrt 2))) := by
  unfold scaledScores
  rw [if_pos (by rw [scores_length s h]; exact h)]

theorem scaledScores_length (s : List Char) (h : 0 < (tokens s).length) :
    (scaledScores s).length = (tokens s).length := by
  rw [scaledScores_eq s h, List.length_map, scores_length s h]

theorem scaledScores_row_length {s : List Char} {r : List ℝ} (h : 0 < (tokens s).length)
    (hr : r ∈ scaledScores s) : r.length = (tokens s).length := by
  rw [scaledScores_eq s h] at hr
  obtain ⟨q, hq, rfl⟩ := List.mem_map.mp hr
  rw [List.length_map]
  exact scores_row_length h hq

theorem attentionWeights_eq (s : List Char) (h : 0 < (tokens s).length) :
    attentionWeights s = (scaledScores s).map softmax := by
  unfold attentionWeights
  rw [if_pos (by rw [scaledScores_length s h]; exact h)]

/-- With no tokens, every derived stage is the empty matrix. -/
theorem stages_nil (s : List Char) (h : (tokens s).length = 0) :
    embeddings (tokens s) = [] ∧ Q s = [] ∧ K s = [] ∧ V s = [] ∧ scores s = [] ∧
      scaledScores s = [] ∧ attentionWeights s = [] ∧ output s = [] := by
  have hE : embeddings (tokens s) = [] := by
    unfold embeddings
    rw [if_neg (by omega)]
  have hQ : Q s = [] := by unfold Q; rw [hE]; simp
  have hK : K s = [] := by unfold K; rw [hE]; simp
  have hV : V s = [] := by unfold V; rw [hE]; simp
  have hSc : scores s = [] := by unfold scores; rw [hQ]; simp
  have hSS : scaledScores s = [] := by unfold scaledScores; rw [hSc]; simp
  have hAW : attentionWeights s = [] := by unfold attentionWeights; rw [hSS]; simp
  have hO : output s = [] := by unfold output; rw [hAW]; simp
  exact ⟨hE, hQ, hK, hV, hSc, hSS, hAW, hO⟩

/-! Tokenizer lemmas. -/

theorem splitOnSpace_no_space {l t : List Char} (h : t ∈ splitOnSpace l) : ' ' ∉ t := by
  induction l generalizing t with
  | nil =>
    simp only [splitOnSpace, List.mem_singleton] at h
    rw [h]
    simp
  | cons c cs ih =>
    unfold splitOnSpace at h
    by_cases hc : c = ' '
    · rw [if_pos hc] at h
      rcases List.mem_cons.mp h with rfl | h2
      · simp
      · exact ih h2
    · rw [if_neg hc] at h
      cases hsp : splitOnSpace cs with
      | nil =>
        rw [hsp] at h
        simp only [List.mem_singleton] at h
        rw [h]
        simp only [List.mem_singleton]
        intro h3
        exact hc h3.symm
      | cons t0 r =>
        rw [hsp] at h
        rcases List.mem_cons.mp h with rfl | h2
        · intro hmem
          rcases List.mem_cons.mp hmem with h3 | h3
          · exact hc h3.symm
          · exact ih (t := t0) (by rw [hsp]; exact List.mem_cons_self t0 r) h3
        · exact ih (by rw [hsp]; exact List.mem_cons_of_mem _ h2)

theorem tokens_mem {s t : List Char} (h : t ∈ tokens s) : t ≠ [] ∧ ' ' ∉ t := by
  unfold tokens at h
  obtain ⟨hmem, hfil⟩ := List.mem_filter.mp h
  refine ⟨?_, splitOnSpace_no_space hmem⟩
  intro he
  rw [he] at hfil
  simp at hfil

theorem jsTrim_all_ws {s : List Char} (h : ∀ c ∈ s, jsWhitespace c = true) :
    jsTrim s = [] := by
  unfold jsTrim
  rw [List.dropWhile_eq_nil_iff.mpr (fun c hc => h c hc)]
  rfl

theorem tokens_all_ws {s : List Char} (h : ∀ c ∈ s, jsWhitespace c = true) :
    tokens s = [] := by
  unfold tokens
  rw [jsTrim_all_ws h]
  rfl

/-! Entry-level lemmas for `matMul`. -/

theorem getD_of_get? {α : Type} {l : List α} {i : ℕ} {x : α} (d : α)
    (h : l.get? i = some x) : l.getD i d = x := by
  rw [List.getD_eq_get?, h]
  rfl

theorem get?_isSome_of_lt {α : Type} {l : List α} {i : ℕ} (h : i < l.length) :
    ∃ x, l.get? i = some x := by
  cases hx : l.get? i with
  | none => rw [List.get?_eq_none] at hx; omega
  | some v => exact ⟨v, rfl⟩

theorem range_map_getD {β : Type} [Inhabited β] (n j : ℕ) (g : ℕ → β) (d : β) (hj : j < n) :
    ((List.range n).map g).getD j d = g j := by
  apply getD_of_get?
  rw [List.get?_map, List.get?_range hj]
  rfl

theorem matMul_entry {A B : List (List ℝ)} (hA : A.length ≠ 0) (hB : B.length ≠ 0)
    {i j : ℕ} (hi : i < A.length) (hj : j < (B.headD []).length) :
    ((matMul A B).getD i []).getD j 0 = round2 (dotRow (A.getD i []) B j) := by
  obtain ⟨r, hr⟩ := get?_isSome_of_lt hi
  have hrow : (matMul A B).getD i [] =
      (List.range (B.headD []).length).map (fun j => round2 (dotRow r B j)) := by
    apply getD_of_get?
    rw [matMul_get? hA hB i, hr]
    rfl
  rw [hrow, range_map_getD _ _ _ _ hj, getD_of_get? [] hr]

/-! Lemmas for `generateAttentionStory`. -/

theorem insertDesc_perm (e : AttnEntry) (l : List AttnEntry) :
    (insertDesc e l).Perm (e :: l) := by
  induction l with
  | nil => exact List.Perm.refl _
  | cons x xs ih =>
    unfold insertDesc
    split
    · exact List.Perm.refl _
    · exact (ih.cons x).trans (List.Perm.swap e x xs)

theorem sortDesc_perm (l : List AttnEntry) : (sortDesc l).Perm l := by
  induction l with
  | nil => exact List.Perm.refl _
  | cons x xs ih => exact (insertDesc_perm x (sortDesc xs)).trans (ih.cons x)

theorem sortDesc_length (l : List AttnEntry) : (sortDesc l).length = l.length :=
  (sortDesc_perm l).length_eq

theorem insertDesc_pairwise {x : AttnEntry} {l : List AttnEntry}
    (hl : l.Pairwise storyOrd) (hx : ∀ y ∈ l, x.idx < y.idx) :
    (insertDesc x l).Pairwise storyOrd := by
  induction l with
  | nil => simp [insertDesc]
  | cons y ys ih =>
    rw [List.pairwise_cons] at hl
    obtain ⟨hy_ys, hys⟩ := hl
    unfold insertDesc
    split
    · rename_i hw
      refine List.Pairwise.cons ?_ (List.pairwise_cons.mpr ⟨hy_ys, hys⟩)
      intro z hz
      rcases List.mem_cons.mp hz with rfl | hz2
      · rcases lt_or_eq_of_le hw with h | h
        · exact Or.inl h
        · exact Or.inr ⟨h.symm, hx z (List.mem_cons_self _ _)⟩
      · have hzw : z.weight ≤ x.weight := by
          rcases hy_ys z hz2 with h | h
          · exact h.le.trans (by assumption)
          · exact h.1.ge.trans (by assumption)
        rcases lt_or_eq_of_le hzw with h | h
        · exact Or.inl h
        · exact Or.inr ⟨h.symm, hx z (List.mem_cons_of_mem _ hz2)⟩
    · rename_i hw
      push_neg at hw
      refine List.Pairwise.cons ?_ (ih hys (fun z hz => hx z (List.mem_cons_of_mem _ hz)))
      intro z hz
      have hz2 : z ∈ x :: ys := (insertDesc_perm x ys).mem_iff.mp hz
      rcases List.mem_cons.mp hz2 with rfl | hz3
      · exact Or.inl hw
      · exact hy_ys z hz3

theorem sortDesc_pairwise {l : List AttnEntry}
    (hl : l.Pairwise (fun a b => a.idx < b.idx)) :
    (sortDesc l).Pairwise storyOrd := by
  induction l with
  | nil => simp [sortDesc]
  | cons x xs ih =>
    rw [List.pairwise_cons] at hl
    refine insertDesc_pairwise (ih hl.2) ?_
    intro y hy
    exact hl.1 y ((sortDesc_perm xs).mem_iff.mp hy)

theorem enumFrom_fst_le {l : List ℚ} {m : ℕ} {z : ℕ × ℚ}
    (hz : z ∈ List.enumFrom m l) : m ≤ z.1 := by
  induction l generalizing m with
  | nil => simp at hz
  | cons x xs ih =>
    rw [List.enumFrom_cons] at hz
    rcases List.mem_cons.mp hz with rfl | hz2
    · exact le_refl _
    · exact (Nat.le_succ m).trans (ih hz2)

theorem enumFrom_pairwise (m : ℕ) (l : List ℚ) :
    (List.enumFrom m l).Pairwise (fun a b => a.1 < b.1) := by
  induction l generalizing m with
  | nil => simp
  | cons x xs ih =>
    rw [List.enumFrom_cons]
    refine List.Pairwise.cons ?_ (ih (m + 1))
    intro z hz
    have := enumFrom_fst_le hz
    omega

theorem validEntries_idx_pairwise (toks : List (List Char)) (row : List ℚ) :
    (validEntries toks row).Pairwise (fun a b => a.idx < b.idx) := by
  unfold validEntries mkEntries
  refine List.Pairwise.sublist (List.filter_sublist _) ?_
  rw [List.pairwise_map]
  exact (enumFrom_pairwise 0 row).imp (fun h => h)

theorem validEntries_of_nil_toks (row : List ℚ) : validEntries [] row = [] := by
  unfold validEntries
  rw [List.filter_eq_nil]
  intro e he
  unfold mkEntries at he
  obtain ⟨p, _, rfl⟩ := List.mem_map.mp he
  simp [entryAtTok]

theorem validEntries_length_le (toks : List (List Char)) (row : List ℚ) :
    (validEntries toks row).length ≤ row.length := by
  calc (validEntries toks row).length ≤ (mkEntries toks row).length :=
        (List.filter_sublist _).length_le
    _ = row.length := by unfold mkEntries; rw [List.length_map, List.enum, List.enumFrom_length]

/-- The two sentence templates and the placeholder share the prefix
`"word" is ` and then differ ( `m` against `s`), so they are never equal. -/
theorem quoted_ne {word r1 r2 : List Char} (hne : r1.get? 4 ≠ r2.get? 4) :
    ('"' :: word) ++ ('"' :: r1) ≠ ('"' :: word) ++ ('"' :: r2) := by
  intro h
  rw [List.cons_append, List.cons_append] at h
  injection h with _ h1
  have h2 := List.append_cancel_left h1
  injection h2 with _ h3
  exact hne (by rw [h3])

theorem selfStory_ne_placeholder (word : List Char) (t0 t1 : AttnEntry) :
    selfStory word t0 t1 ≠ placeholderStory word := by
  unfold selfStory placeholderStory
  have hshape : ('"' :: word) ++ ('"' :: " is mostly focused on itself (".toList) ++
      percentChars t0.weight ++ "%), but also pays some attention to \"".toList ++
      t1.token ++ ('"' :: " (".toList) ++ percentChars t1.weight ++ "%).".toList =
      ('"' :: word) ++ ('"' :: (" is mostly focused on itself (".toList ++
        (percentChars t0.weight ++ "%), but also pays some attention to \"".toList ++
         t1.token ++ ('"' :: " (".toList) ++ percentChars t1.weight ++ "%).".toList))) := by
    simp [List.append_assoc]
  rw [hshape]
  apply quoted_ne
  intro h
  rw [List.get?_append (by decide)] at h
  revert h
  decide

theorem otherStory_ne_placeholder (word : List Char) (t0 t1 : AttnEntry) :
    otherStory word t0 t1 ≠ placeholderStory word := by
  unfold otherStory placeholderStory
  have hshape : ('"' :: word) ++ ('"' :: " is most interested in \"".toList) ++ t0.token ++
      ('"' :: " (".toList) ++ percentChars t0.weight ++
      "% of its attention), followed by \"".toList ++ t1.token ++
      ('"' :: " (".toList) ++ percentChars t1.weight ++ "%).".toList =
      ('"' :: word) ++ ('"' :: (" is most interested in \"".toList ++
        (t0.token ++ ('"' :: " (".toList) ++ percentChars t0.weight ++
         "% of its attention), followed by \"".toList ++ t1.token ++
         ('"' :: " (".toList) ++ percentChars t1.weight ++ "%).".toList))) := by
    simp [List.append_assoc]
  rw [hshape]
  apply quoted_ne
  intro h
  rw [List.get?_append (by decide)] at h
  revert h
  decide

theorem story_of_lt2 (word : List Char) (toks : List (List Char)) (row : List ℚ) (i : ℕ)
    (h : (validEntries toks row).length < 2) :
    generateAttentionStory word toks row i = placeholderStory word := by
  unfold generateAttentionStory
  split
  · rfl
  · rw [if_pos (by rw [sortDesc_length]; exact h)]

theorem story_of_ge2 (word : List Char) (toks : List (List Char)) (row : List ℚ) (i : ℕ)
    (h : 2 ≤ (validEntries toks row).length) :
    ∃ a b rest, sortDesc (validEntries toks row) = a :: b :: rest ∧
      generateAttentionStory word toks row i =
        (if a.idx = i then selfStory word a b else otherStory word a b) := by
  have hlen : 2 ≤ (sortDesc (validEntries toks row)).length := by
    rw [sortDesc_length]
    exact h
  have hrow : row.length ≠ 0 := by
    have := validEntries_length_le toks row
    omega
  have htoks : toks.length ≠ 0 := by
    intro h0
    have : toks = [] := List.length_eq_zero.mp h0
    rw [this, validEntries_of_nil_toks] at h
    simp at h
  obtain ⟨a, t, hsd⟩ : ∃ a t, sortDesc (validEntries toks row) = a :: t := by
    cases hc : sortDesc (validEntries toks row) with
    | nil => rw [hc] at hlen; simp at hlen
    | cons a t => exact ⟨a, t, rfl⟩
  obtain ⟨b, rest, hbt⟩ : ∃ b rest, t = b :: rest := by
    cases hc : t with
    | nil => rw [hc] at hsd; rw [hsd] at hlen; simp at hlen
    | cons b rest => exact ⟨b, rest, rfl⟩
  rw [hbt] at hsd
  refine ⟨a, b, rest, hsd, ?_⟩
  unfold generateAttentionStory
  rw [if_neg (by push_neg; exact ⟨hrow, htoks⟩), if_neg (by omega), hsd]
  rfl

/-! Interval bounds for the sine and cosine values the counterexample input
needs, derived from the Taylor bounds `Real.sin_bound` and `Real.cos_bound`
at the base points 1/8 and 3/20 and then the double- and add-angle
identities. -/

theorem s18_bounds : (1246617/10000000 : ℝ) < Real.sin (1/8) ∧ Real.sin (1/8) < 155859/1250000 := by
  have h := Real.sin_bound (x := 1/8) (by rw [abs_of_pos (by norm_num : (0:ℝ) < 1/8)]; norm_num)
  rw [abs_of_pos (by norm_num : (0:ℝ) < 1/8), abs_le] at h
  obtain ⟨h1, h2⟩ := h
  norm_num at h1 h2
  constructor <;> linarith

theorem c18_bounds : (9921747/10000000 : ℝ) < Real.cos (1/8) ∧ Real.cos (1/8) < 9922003/10000000 := by
  have h := Real.cos_bound (x := 1/8) (by rw [abs_of_pos (by norm_num : (0:ℝ) < 1/8)]; norm_num)
  rw [abs_of_pos (by norm_num : (0:ℝ) < 1/8), abs_le] at h
  obtain ⟨h1, h2⟩ := h
  norm_num at h1 h2
  constructor <;> linarith

theorem s320_bounds : (1494111/10000000 : ℝ) < Real.sin (3/20) ∧ Real.sin (3/20) < 1494639/10000000 := by
  have h := Real.sin_bound (x := 3/20) (by rw [abs_of_pos (by norm_num : (0:ℝ) < 3/20)]; norm_num)
  rw [abs_of_pos (by norm_num : (0:ℝ) < 3/20), abs_le] at h
  obtain ⟨h1, h2⟩ := h
  norm_num at h1 h2
  constructor <;> linarith

theorem c320_bounds : (2471809/2500000 : ℝ) < Real.cos (3/20) ∧ Real.cos (3/20) < 2471941/2500000 := by
  have h := Real.cos_bound (x := 3/20) (by rw [abs_of_pos (by norm_num : (0:ℝ) < 3/20)]; norm_num)
  rw [abs_of_pos (by norm_num : (0:ℝ) < 3/20), abs_le] at h
  obtain ⟨h1, h2⟩ := h
  norm_num at h1 h2
  constructor <;> linarith

theorem s14_bounds : (2473723/10000000 : ℝ) < Real.sin (1/4) ∧ Real.sin (1/4) < 1237147/5000000 := by
  have hs := s18_bounds
  have hc := c18_bounds
  have h : Real.sin (1/4) = 2 * Real.sin (1/8) * Real.cos (1/8) := by
    rw [← Real.sin_two_mul]
    norm_num
  rw [h]
  constructor <;> nlinarith [hs.1, hs.2, hc.1, hc.2, mul_pos (sub_pos.mpr hs.1) (sub_pos.mpr hc.1), mul_pos (sub_pos.mpr hs.2) (sub_pos.mpr hc.2), mul_pos (sub_pos.mpr hs.1) (sub_pos.mpr hc.2), mul_pos (sub_pos.mpr hs.2) (sub_pos.mpr hc.1)]

theorem c14_bounds : (4844531/5000000 : ℝ) < Real.cos (1/4) ∧ Real.cos (1/4) < 968919/1000000 := by
  have hs := s18_bounds
  have hpy := Real.sin_sq_add_cos_sq (1/8)
  have h : Real.cos (1/4) = 2 * Real.cos (1/8) ^ 2 - 1 := by
    rw [← Real.cos_two_mul]
    norm_num
  rw [h]
  have hlo : (0:ℝ) < Real.sin (1/8) + 1246617/10000000 := by nlinarith [hs.1]
  constructor <;> nlinarith [hs.1, hs.2, hpy, mul_pos (sub_pos.mpr hs.1) hlo, mul_pos (sub_pos.mpr hs.1) (sub_pos.mpr hs.2)]

theorem s12_bounds : (4793611/10000000 : ℝ) < Real.sin (1/2) ∧ Real.sin (1/2) < 4794781/10000000 := by
  have hs := s14_bounds
  have hc := c14_bounds
  have h : Real.sin (1/2) = 2 * Real.sin (1/4) * Real.cos (1/4) := by
    rw [← Real.sin_two_mul]
    norm_num
  rw [h]
  constructor <;> nlinarith [hs.1, hs.2, hc.1, hc.2, mul_pos (sub_pos.mpr hs.1) (sub_pos.mpr hc.1), mul_pos (sub_pos.mpr hs.2) (sub_pos.mpr hc.2), mul_pos (sub_pos.mpr hs.1) (sub_pos.mpr hc.2), mul_pos (sub_pos.mpr hs.2) (sub_pos.mpr hc.1)]

theorem c12_bounds : (8775573/10000000 : ℝ) < Real.cos (1/2) ∧ Real.cos (1/2) < 8776139/10000000 := by
  have hs := s14_bounds
  have hpy := Real.sin_sq_add_cos_sq (1/4)
  have h : Real.cos (1/2) = 2 * Real.cos (1/4) ^ 2 - 1 := by
    rw [← Real.cos_two_mul]
    norm_num
  rw [h]
  have hlo : (0:ℝ) < Real.sin (1/4) + 2473723/10000000 := by nlinarith [hs.1]
  constructor <;> nlinarith [hs.1, hs.2, hpy, mul_pos (sub_pos.mpr hs.1) hlo, mul_pos (sub_pos.mpr hs.1) (sub_pos.mpr hs.2)]

theorem s1_bounds : (1051667/1250000 : ℝ) < Real.sin (1) ∧ Real.sin (1) < 8415933/10000000 := by
  have hs := s12_bounds
  have hc := c12_bounds
  have h : Real.sin (1) = 2 * Real.sin (1/2) * Real.cos (1/2) := by
    rw [← Real.sin_two_mul]
    norm_num
  rw [h]
  constructor <;> nlinarith [hs.1, hs.2, hc.1, hc.2, mul_pos (sub_pos.mpr hs.1) (sub_pos.mpr hc.1), mul_pos (sub_pos.mpr hs.2) (sub_pos.mpr hc.2), mul_pos (sub_pos.mpr hs.1) (sub_pos.mpr hc.2), mul_pos (sub_pos.mpr hs.2) (sub_pos.mpr hc.1)]

theorem c1_bounds : (1080403/2000000 : ℝ) < Real.cos (1) ∧ Real.cos (1) < 5404259/10000000 := by
  have hs := s12_bounds
  have hpy := Real.sin_sq_add_cos_sq (1/2)
  have h : Real.cos (1) = 2 * Real.cos (1/2) ^ 2 - 1 := by
    rw [← Real.cos_two_mul]
    norm_num
  rw [h]
  have hlo : (0:ℝ) < Real.sin (1/2) + 4793611/10000000 := by nlinarith [hs.1]
  constructor <;> nlinarith [hs.1, hs.2, hpy, mul_pos (sub_pos.mpr hs.1) hlo, mul_pos (sub_pos.mpr hs.1) (sub_pos.mpr hs.2)]

theorem s2_bounds : (9089793/10000000 : ℝ) < Real.sin (2) ∧ Real.sin (2) < 9096377/10000000 := by
  have hs := s1_bounds
  have hc := c1_bounds
  have h : Real.sin (2) = 2 * Real.sin (1) * Real.cos (1) := by
    rw [← Real.sin_two_mul]
    norm_num
  rw [h]
  constructor <;> nlinarith [hs.1, hs.2, hc.1, hc.2, mul_pos (sub_pos.mpr hs.1) (sub_pos.mpr hc.1), mul_pos (sub_pos.mpr hs.2) (sub_pos.mpr hc.2), mul_pos (sub_pos.mpr hs.1) (sub_pos.mpr hc.2), mul_pos (sub_pos.mpr hs.2) (sub_pos.mpr hc.1)]

theorem c2_bounds : (-2082793/5000000 : ℝ) < Real.cos (2) ∧ Real.cos (2) < -1039211/2500000 := by
  have hs := s1_bounds
  have hpy := Real.sin_sq_add_cos_sq (1)
  have h : Real.cos (2) = 2 * Real.cos (1) ^ 2 - 1 := by
    rw [← Real.cos_two_mul]
    norm_num
  rw [h]
  have hlo : (0:ℝ) < Real.sin (1) + 1051667/1250000 := by nlinarith [hs.1]
  constructor <;> nlinarith [hs.1, hs.2, hpy, mul_pos (sub_pos.mpr hs.1) hlo, mul_pos (sub_pos.mpr hs.1) (sub_pos.mpr hs.2)]

theorem s32_bounds : (99727/100000 : ℝ) < Real.sin (3/2) ∧ Real.sin (3/2) < 2494291/2500000 := by
  have hs1 := s1_bounds
  have hc1 := c1_bounds
  have hs2 := s12_bounds
  have hc2 := c12_bounds
  have h : Real.sin (3/2) = Real.sin (1) * Real.cos (1/2) + Real.cos (1) * Real.sin (1/2) := by
    rw [← Real.sin_add]
    norm_num
  rw [h]
  constructor <;> nlinarith [hs1.1, hs1.2, hc1.1, hc1.2, hs2.1, hs2.2, hc2.1, hc2.2, mul_pos (sub_pos.mpr hs1.1) (sub_pos.mpr hc2.1), mul_pos (sub_pos.mpr hs1.2) (sub_pos.mpr hc2.2), mul_pos (sub_pos.mpr hs1.1) (sub_pos.mpr hc2.2), mul_pos (sub_pos.mpr hs1.2) (sub_pos.mpr hc2.1), mul_pos (sub_pos.mpr hc1.1) (sub_pos.mpr hs2.1), mul_pos (sub_pos.mpr hc1.2) (sub_pos.mpr hs2.2), mul_pos (sub_pos.mpr hc1.1) (sub_pos.mpr hs2.2), mul_pos (sub_pos.mpr hc1.2) (sub_pos.mpr hs2.1)]

theorem s52_bounds : (2989753/5000000 : ℝ) < Real.sin (5/2) ∧ Real.sin (5/2) < 2995239/5000000 := by
  have hs1 := s2_bounds
  have hc1 := c2_bounds
  have hs2 := s12_bounds
  have hc2 := c12_bounds
  have h : Real.sin (5/2) = Real.sin (2) * Real.cos (1/2) + Real.cos (2) * Real.sin (1/2) := by
    rw [← Real.sin_add]
    norm_num
  rw [h]
  constructor <;> nlinarith [hs1.1, hs1.2, hc1.1, hc1.2, hs2.1, hs2.2, hc2.1, hc2.2, mul_pos (sub_pos.mpr hs1.1) (sub_pos.mpr hc2.1), mul_pos (sub_pos.mpr hs1.2) (sub_pos.mpr hc2.2), mul_pos (sub_pos.mpr hs1.1) (sub_pos.mpr hc2.2), mul_pos (sub_pos.mpr hs1.2) (sub_pos.mpr hc2.1), mul_pos (sub_pos.mpr hc1.1) (sub_pos.mpr hs2.1), mul_pos (sub_pos.mpr hc1.2) (sub_pos.mpr hs2.2), mul_pos (sub_pos.mpr hc1.1) (sub_pos.mpr hs2.2), mul_pos (sub_pos.mpr hc1.2) (sub_pos.mpr hs2.1)]

theorem s34_bounds : (6815393/10000000 : ℝ) < Real.sin (3/4) ∧ Real.sin (3/4) < 681723/1000000 := by
  have hs1 := s12_bounds
  have hc1 := c12_bounds
  have hs2 := s14_bounds
  have hc2 := c14_bounds
  have h : Real.sin (3/4) = Real.sin (1/2) * Real.cos (1/4) + Real.cos (1/2) * Real.sin (1/4) := by
    rw [← Real.sin_add]
    norm_num
  rw [h]
  constructor <;> nlinarith [hs1.1, hs1.2, hc1.1, hc1.2, hs2.1, hs2.2, hc2.1, hc2.2, mul_pos (sub_pos.mpr hs1.1) (sub_pos.mpr hc2.1), mul_pos (sub_pos.mpr hs1.2) (sub_pos.mpr hc2.2), mul_pos (sub_pos.mpr hs1.1) (sub_pos.mpr hc2.2), mul_pos (sub_pos.mpr hs1.2) (sub_pos.mpr hc2.1), mul_pos (sub_pos.mpr hc1.1) (sub_pos.mpr hs2.1), mul_pos (sub_pos.mpr hc1.2) (sub_pos.mpr hs2.2), mul_pos (sub_pos.mpr hc1.1) (sub_pos.mpr hs2.2), mul_pos (sub_pos.mpr hc1.2) (sub_pos.mpr hs2.1)]

theorem c32_bounds : (28203/400000 : ℝ) < Real.cos (3/2) ∧ Real.cos (3/2) < 177521/2500000 := by
  have hs := s34_bounds
  have hpy := Real.sin_sq_add_cos_sq (3/4)
  have h : Real.cos (3/2) = 2 * Real.cos (3/4) ^ 2 - 1 := by
    rw [← Real.cos_two_mul]
    norm_num
  rw [h]
  have hlo : (0:ℝ) < Real.sin (3/4) + 6815393/10000000 := by nlinarith [hs.1]
  constructor <;> nlinarith [hs.1, hs.2, hpy, mul_pos (sub_pos.mpr hs.1) hlo, mul_pos (sub_pos.mpr hs.1) (sub_pos.mpr hs.2)]

theorem s310_bounds : (118181/400000 : ℝ) < Real.sin (3/10) ∧ Real.sin (3/10) < 184733/625000 := by
  have hs := s320_bounds
  have hc := c320_bounds
  have h : Real.sin (3/10) = 2 * Real.sin (3/20) * Real.cos (3/20) := by
    rw [← Real.sin_two_mul]
    norm_num
  rw [h]
  constructor <;> nlinarith [hs.1, hs.2, hc.1, hc.2, mul_pos (sub_pos.mpr hs.1) (sub_pos.mpr hc.1), mul_pos (sub_pos.mpr hs.2) (sub_pos.mpr hc.2), mul_pos (sub_pos.mpr hs.1) (sub_pos.mpr hc.2), mul_pos (sub_pos.mpr hs.2) (sub_pos.mpr hc.1)]

theorem c310_bounds : (955321/1000000 : ℝ) < Real.cos (3/10) ∧ Real.cos (3/10) < 9553527/10000000 := by
  have hs := s320_bounds
  have hpy := Real.sin_sq_add_cos_sq (3/20)
  have h : Real.cos (3/10) = 2 * Real.cos (3/20) ^ 2 - 1 := by
    rw [← Real.cos_two_mul]
    norm_num
  rw [h]
  have hlo : (0:ℝ) < Real.sin (3/20) + 1494111/10000000 := by nlinarith [hs.1]
  constructor <;> nlinarith [hs.1, hs.2, hpy, mul_pos (sub_pos.mpr hs.1) hlo, mul_pos (sub_pos.mpr hs.1) (sub_pos.mpr hs.2)]

theorem s35_bounds : (5645039/10000000 : ℝ) < Real.sin (3/5) ∧ Real.sin (3/5) < 2823763/5000000 := by
  have hs := s310_bounds
  have hc := c310_bounds
  have h : Real.sin (3/5) = 2 * Real.sin (3/10) * Real.cos (3/10) := by
    rw [← Real.sin_two_mul]
    norm_num
  rw [h]
  constructor <;> nlinarith [hs.1, hs.2, hc.1, hc.2, mul_pos (sub_pos.mpr hs.1) (sub_pos.mpr hc.1), mul_pos (sub_pos.mpr hs.2) (sub_pos.mpr hc.2), mul_pos (sub_pos.mpr hs.1) (sub_pos.mpr hc.2), mul_pos (sub_pos.mpr hs.2) (sub_pos.mpr hc.1)]

theorem c35_bounds : (4126367/5000000 : ℝ) < Real.cos (3/5) ∧ Real.cos (3/5) < 8254157/10000000 := by
  have hs := s310_bounds
  have hpy := Real.sin_sq_add_cos_sq (3/10)
  have h : Real.cos (3/5) = 2 * Real.cos (3/10) ^ 2 - 1 := by
    rw [← Real.cos_two_mul]
    norm_num
  rw [h]
  have hlo : (0:ℝ) < Real.sin (3/10) + 118181/400000 := by nlinarith [hs.1]
  constructor <;> nlinarith [hs.1, hs.2, hpy, mul_pos (sub_pos.mpr hs.1) hlo, mul_pos (sub_pos.mpr hs.1) (sub_pos.mpr hs.2)]

theorem c910_bounds : (1242951/2000000 : ℝ) < Real.cos (9/10) ∧ Real.cos (9/10) < 6217791/10000000 := by
  have hs1 := s35_bounds
  have hc1 := c35_bounds
  have hs2 := s310_bounds
  have hc2 := c310_bounds
  have h : Real.cos (9/10) = Real.cos (3/5) * Real.cos (3/10) - Real.sin (3/5) * Real.sin (3/10) := by
    rw [← Real.cos_add]
    norm_num
  rw [h]
  constructor <;> nlinarith [hs1.1, hs1.2, hc1.1, hc1.2, hs2.1, hs2.2, hc2.1, hc2.2, mul_pos (sub_pos.mpr hc1.1) (sub_pos.mpr hc2.1), mul_pos (sub_pos.mpr hc1.2) (sub_pos.mpr hc2.2), mul_pos (sub_pos.mpr hc1.1) (sub_pos.mpr hc2.2), mul_pos (sub_pos.mpr hc1.2) (sub_pos.mpr hc2.1), mul_pos (sub_pos.mpr hs1.1) (sub_pos.mpr hs2.1), mul_pos (sub_pos.mpr hs1.2) (sub_pos.mpr hs2.2), mul_pos (sub_pos.mpr hs1.1) (sub_pos.mpr hs2.2), mul_pos (sub_pos.mpr hs1.2) (sub_pos.mpr hs2.1)]

theorem c65_bounds : (362109/1000000 : ℝ) < Real.cos (6/5) ∧ Real.cos (6/5) < 3626707/10000000 := by
  have hs := s35_bounds
  have hpy := Real.sin_sq_add_cos_sq (3/5)
  have h : Real.cos (6/5) = 2 * Real.cos (3/5) ^ 2 - 1 := by
    rw [← Real.cos_two_mul]
    norm_num
  rw [h]
  have hlo : (0:ℝ) < Real.sin (3/5) + 5645039/10000000 := by nlinarith [hs.1]
  constructor <;> nlinarith [hs.1, hs.2, hpy, mul_pos (sub_pos.mpr hs.1) hlo, mul_pos (sub_pos.mpr hs.1) (sub_pos.mpr hs.2)]

/-! Rounded embedder components at positions 1 to 5, pinned from the interval
bounds. -/

theorem pinA1 : round2 (Real.sin (1/2) * 0.8 + 0.2) = 58/100 := by
  have h := s12_bounds
  rw [round2_eq (k := 58) (by push_cast; nlinarith [h.1, h.2]) (by push_cast; nlinarith [h.1, h.2])]
  norm_num

theorem pinA2 : round2 (Real.sin 1 * 0.8 + 0.2) = 87/100 := by
  have h := s1_bounds
  rw [round2_eq (k := 87) (by push_cast; nlinarith [h.1, h.2]) (by push_cast; nlinarith [h.1, h.2])]
  norm_num

theorem pinA3 : round2 (Real.sin (3/2) * 0.8 + 0.2) = 100/100 := by
  have h := s32_bounds
  rw [round2_eq (k := 100) (by push_cast; nlinarith [h.1, h.2]) (by push_cast; nlinarith [h.1, h.2])]
  norm_num

theorem pinA4 : round2 (Real.sin 2 * 0.8 + 0.2) = 93/100 := by
  have h := s2_bounds
  rw [round2_eq (k := 93) (by push_cast; nlinarith [h.1, h.2]) (by push_cast; nlinarith [h.1, h.2])]
  norm_num

theorem pinA5 : round2 (Real.sin (5/2) * 0.8 + 0.2) = 68/100 := by
  have h := s52_bounds
  rw [round2_eq (k := 68) (by push_cast; nlinarith [h.1, h.2]) (by push_cast; nlinarith [h.1, h.2])]
  norm_num

theorem pinB1 : round2 (Real.cos (3/10) * 0.6 + 0.4) = 97/100 := by
  have h := c310_bounds
  rw [round2_eq (k := 97) (by push_cast; nlinarith [h.1, h.2]) (by push_cast; nlinarith [h.1, h.2])]
  norm_num

theorem pinB2 : round2 (Real.cos (3/5) * 0.6 + 0.4) = 90/100 := by
  have h := c35_bounds
  rw [round2_eq (k := 90) (by push_cast; nlinarith [h.1, h.2]) (by push_cast; nlinarith [h.1, h.2])]
  norm_num

theorem pinB3 : round2 (Real.cos (9/10) * 0.6 + 0.4) = 77/100 := by
  have h := c910_bounds
  rw [round2_eq (k := 77) (by push_cast; nlinarith [h.1, h.2]) (by push_cast; nlinarith [h.1, h.2])]
  norm_num

theorem pinB4 : round2 (Real.cos (6/5) * 0.6 + 0.4) = 62/100 := by
  have h := c65_bounds
  rw [round2_eq (k := 62) (by push_cast; nlinarith [h.1, h.2]) (by push_cast; nlinarith [h.1, h.2])]
  norm_num

theorem pinB5 : round2 (Real.cos (3/2) * 0.6 + 0.4) = 44/100 := by
  have h := c32_bounds
  rw [round2_eq (k := 44) (by push_cast; nlinarith [h.1, h.2]) (by push_cast; nlinarith [h.1, h.2])]
  norm_num

/-! A concrete six-token input whose first attention row is exactly uniform:
token 0 makes the first query component exactly 0, and the token lengths and
first characters are chosen so that every key row has second component 0.17.
The softmax of the resulting constant score row is `1/6` rounded to `0.167`,
and six of those sum to `1.002`. -/

theorem ce_tokens : tokens ceInput = [ceTok0, ceTok1, ceTok2, ceTok3, ceTok4, ceTok5] := by
  decide

theorem ce_tokens_length : (tokens ceInput).length = 6 := by
  rw [ce_tokens]
  rfl

theorem ce_tokens_pos : 0 < (tokens ceInput).length := by
  rw [ce_tokens_length]
  norm_num

theorem ceE0 : embedRow ceTok0 0 = [20/100, 100/100, 110/100, 20/100] := by
  unfold embedRow
  have hL : jsLength ceTok0 = 11 := by decide
  have hC : jsCharCodeAt0 ceTok0 % 10 = 2 := by decide
  rw [hL, hC]
  rw [show (((0:ℕ) : ℝ) * 0.5) = 0 by norm_num, show (((0:ℕ) : ℝ) * 0.3) = 0 by norm_num,
    Real.sin_zero, Real.cos_zero]
  rw [show ((0:ℝ) * 0.8 + 0.2) = 20/100 by norm_num, show ((1:ℝ) * 0.6 + 0.4) = 1 by norm_num,
    show (((11:ℕ):ℝ) * 0.1) = 110/100 by norm_num, show (((2:ℕ):ℝ) * 0.1) = 20/100 by norm_num]
  rw [round2_eq (x := (20:ℝ)/100) (k := 20) (by norm_num) (by norm_num),
    round2_eq (x := (1:ℝ)) (k := 100) (by norm_num) (by norm_num),
    round2_eq (x := (110:ℝ)/100) (k := 110) (by norm_num) (by norm_num)]
  norm_num

theorem ceE1 : embedRow ceTok1 1 = [58/100, 97/100, 190/100, 30/100] := by
  unfold embedRow
  have hL : jsLength ceTok1 = 19 := by decide
  have hC : jsCharCodeAt0 ceTok1 % 10 = 3 := by decide
  rw [hL, hC]
  rw [show (((1:ℕ) : ℝ) * 0.5) = 1/2 by norm_num, show (((1:ℕ) : ℝ) * 0.3) = 3/10 by norm_num,
    pinA1, pinB1]
  rw [show (((19:ℕ):ℝ) * 0.1) = 190/100 by norm_num, show (((3:ℕ):ℝ) * 0.1) = 30/100 by norm_num]
  rw [round2_eq (x := (190:ℝ)/100) (k := 190) (by norm_num) (by norm_num),
    round2_eq (x := (30:ℝ)/100) (k := 30) (by norm_num) (by norm_num)]
  norm_num

theorem ceE2 : embedRow ceTok2 2 = [87/100, 90/100, 250/100, 40/100] := by
  unfold embedRow
  have hL : jsLength ceTok2 = 25 := by decide
  have hC : jsCharCodeAt0 ceTok2 % 10 = 4 := by decide
  rw [hL, hC]
  rw [show (((2:ℕ) : ℝ) * 0.5) = 1 by norm_num, show (((2:ℕ) : ℝ) * 0.3) = 3/5 by norm_num,
    pinA2, pinB2]
  rw [show (((25:ℕ):ℝ) * 0.1) = 250/100 by norm_num, show (((4:ℕ):ℝ) * 0.1) = 40/100 by norm_num]
  rw [round2_eq (x := (250:ℝ)/100) (k := 250) (by norm_num) (by norm_num),
    round2_eq (x := (40:ℝ)/100) (k := 40) (by norm_num) (by norm_num)]
  norm_num

theorem ceE3 : embedRow ceTok3 3 = [100/100, 77/100, 250/100, 30/100] := by
  unfold embedRow
  have hL : jsLength ceTok3 = 25 := by decide
  have hC : jsCharCodeAt0 ceTok3 % 10 = 3 := by decide
  rw [hL, hC]
  rw [show (((3:ℕ) : ℝ) * 0.5) = 3/2 by norm_num, show (((3:ℕ) : ℝ) * 0.3) = 9/10 by norm_num,
    pinA3, pinB3]
  rw [show (((25:ℕ):ℝ) * 0.1) = 250/100 by norm_num, show (((3:ℕ):ℝ) * 0.1) = 30/100 by norm_num]
  rw [round2_eq (x := (250:ℝ)/100) (k := 250) (by norm_num) (by norm_num),
    round2_eq (x := (30:ℝ)/100) (k := 30) (by norm_num) (by norm_num)]
  norm_num

theorem ceE4 : embedRow ceTok4 4 = [93/100, 62/100, 240/100, 40/100] := by
  unfold embedRow
  have hL : jsLength ceTok4 = 24 := by decide
  have hC : jsCharCodeAt0 ceTok4 % 10 = 4 := by decide
  rw [hL, hC]
  rw [show (((4:ℕ) : ℝ) * 0.5) = 2 by norm_num, show (((4:ℕ) : ℝ) * 0.3) = 6/5 by norm_num,
    pinA4, pinB4]
  rw [show (((24:ℕ):ℝ) * 0.1) = 240/100 by norm_num, show (((4:ℕ):ℝ) * 0.1) = 40/100 by norm_num]
  rw [round2_eq (x := (240:ℝ)/100) (k := 240) (by norm_num) (by norm_num),
    round2_eq (x := (40:ℝ)/100) (k := 40) (by norm_num) (by norm_num)]
  norm_num

theorem ceE5 : embedRow ceTok5 5 = [68/100, 44/100, 180/100, 40/100] := by
  unfold embedRow
  have hL : jsLength ceTok5 = 18 := by decide
  have hC : jsCharCodeAt0 ceTok5 % 10 = 4 := by decide
  rw [hL, hC]
  rw [show (((5:ℕ) : ℝ) * 0.5) = 5/2 by norm_num, show (((5:ℕ) : ℝ) * 0.3) = 3/2 by norm_num,
    pinA5, pinB5]
  rw [show (((18:ℕ):ℝ) * 0.1) = 180/100 by norm_num, show (((4:ℕ):ℝ) * 0.1) = 40/100 by norm_num]
  rw [round2_eq (x := (180:ℝ)/100) (k := 180) (by norm_num) (by norm_num),
    round2_eq (x := (40:ℝ)/100) (k := 40) (by norm_num) (by norm_num)]
  norm_num

theorem ce_embeds : embeddings (tokens ceInput) =
    [[20/100, 100/100, 110/100, 20/100], [58/100, 97/100, 190/100, 30/100],
     [87/100, 90/100, 250/100, 40/100], [100/100, 77/100, 250/100, 30/100],
     [93/100, 62/100, 240/100, 40/100], [68/100, 44/100, 180/100, 40/100]] := by
  rw [ce_tokens]
  unfold embeddings
  rw [if_pos (by norm_num)]
  rw [show embedAux 0 [ceTok0, ceTok1, ceTok2, ceTok3, ceTok4, ceTok5] =
      [embedRow ceTok0 0, embedRow ceTok1 1, embedRow ceTok2 2, embedRow ceTok3 3,
       embedRow ceTok4 4, embedRow ceTok5 5] from rfl]
  rw [ceE0, ceE1, ceE2, ceE3, ceE4, ceE5]

theorem get?_eq_some_getD {α : Type} {l : List α} {i : ℕ} (d : α) (h : i < l.length) :
    l.get? i = some (l.getD i d) := by
  obtain ⟨x, hx⟩ := get?_isSome_of_lt h
  rw [hx, getD_of_get? d hx]

theorem replicate_getD {α : Type} {n i : ℕ} {a d : α} (h : i < n) :
    (List.replicate n a).getD i d = a := by
  induction n generalizing i with
  | zero => omega
  | succ m ih =>
    rw [List.replicate_succ]
    cases i with
    | zero => rfl
    | succ k =>
      rw [List.getD_cons_succ]
      exact ih (by omega)

theorem matMul_row (A B : List (List ℝ)) (hA : A.length ≠ 0) (hB : B.length ≠ 0)
    (i : ℕ) (r : List ℝ) (hr : A.get? i = some r) :
    (matMul A B).getD i [] =
      (List.range (B.headD []).length).map (fun j => round2 (dotRow r B j)) := by
  apply getD_of_get?
  rw [matMul_get? hA hB i, hr]
  rfl

theorem ce_Q_row0 : (Q ceInput).getD 0 [] = [0, 138/100] := by
  have hrow := matMul_row
    [[20/100, 100/100, 110/100, 20/100], [58/100, 97/100, 190/100, 30/100],
     [87/100, 90/100, 250/100, 40/100], [100/100, 77/100, 250/100, 30/100],
     [93/100, 62/100, 240/100, 40/100], [68/100, 44/100, 180/100, 40/100]] WQ
    (by norm_num) (by norm_num [WQ]) 0 [20/100, 100/100, 110/100, 20/100] rfl
  rw [Q_eq _ ce_tokens_pos, ce_embeds, hrow]
  rw [show (WQ.headD []).length = 2 from rfl, show List.range 2 = [0, 1] from rfl]
  simp only [List.map_cons, List.map_nil]
  have h0 : dotRow ([20/100, 100/100, 110/100, 20/100] : List ℝ) WQ 0 = 0 := by
    unfold dotRow WQ
    rw [show (([[0.5, -0.3], [0.2, 0.8], [-0.4, 0.6], [0.7, -0.1]] : List (List ℝ))).length = 4
      from rfl]
    rw [Finset.sum_range_succ, Finset.sum_range_succ, Finset.sum_range_succ,
      Finset.sum_range_succ, Finset.sum_range_zero]
    norm_num
  have h1 : dotRow ([20/100, 100/100, 110/100, 20/100] : List ℝ) WQ 1 = 1380/1000 := by
    unfold dotRow WQ
    rw [show (([[0.5, -0.3], [0.2, 0.8], [-0.4, 0.6], [0.7, -0.1]] : List (List ℝ))).length = 4
      from rfl]
    rw [Finset.sum_range_succ, Finset.sum_range_succ, Finset.sum_range_succ,
      Finset.sum_range_succ, Finset.sum_range_zero]
    norm_num
  rw [h0, h1, round2_zero, round2_eq (k := 138) (by norm_num) (by norm_num)]
  norm_num

theorem ce_K_col1 : (K ceInput).map (fun row => row.getD 1 0) = List.replicate 6 (17/100) := by
  rw [K_eq _ ce_tokens_pos, ce_embeds]
  unfold matMul
  rw [if_neg (by norm_num [WK]), List.map_map]
  simp only [List.map_cons, List.map_nil, Function.comp]
  rw [show (WK.headD []).length = 2 from rfl, show List.range 2 = [0, 1] from rfl]
  simp only [List.map_cons, List.map_nil, List.getD_cons_succ, List.getD_cons_zero]
  have hv : ∀ (E : List ℝ), E.length = 4 →
      dotRow E WK 1 = E.getD 0 0 * (9/10) + E.getD 1 0 * (4/10) + E.getD 2 0 * (-5/10) +
        E.getD 3 0 * (7/10) := by
    intro E _
    unfold dotRow WK
    rw [show (([[0.3, 0.9], [-0.2, 0.4], [0.8, -0.5], [0.1, 0.7]] : List (List ℝ))).length = 4
      from rfl]
    rw [Finset.sum_range_succ, Finset.sum_range_succ, Finset.sum_range_succ,
      Finset.sum_range_succ, Finset.sum_range_zero]
    norm_num
  rw [hv [20/100, 100/100, 110/100, 20/100] rfl, hv [58/100, 97/100, 190/100, 30/100] rfl,
    hv [87/100, 90/100, 250/100, 40/100] rfl, hv [100/100, 77/100, 250/100, 30/100] rfl,
    hv [93/100, 62/100, 240/100, 40/100] rfl, hv [68/100, 44/100, 180/100, 40/100] rfl]
  norm_num
  rw [round2_eq (x := (17:ℝ)/100) (k := 17) (by norm_num) (by norm_num),
    round2_eq (x := (173:ℝ)/1000) (k := 17) (by norm_num) (by norm_num),
    round2_eq (x := (21:ℝ)/125) (k := 17) (by norm_num) (by norm_num),
    round2_eq (x := (33:ℝ)/200) (k := 17) (by norm_num) (by norm_num)]
  norm_num [List.replicate_succ]

theorem ce_scores_row0 : (scores ceInput).getD 0 [] = List.replicate 6 (23/100) := by
  have hQlen : (Q ceInput).length ≠ 0 := by
    rw [Q_length _ ce_tokens_pos, ce_tokens_length]
    norm_num
  have hKTlen : (transposeJS (K ceInput)).length ≠ 0 := by
    rw [KT_length _ ce_tokens_pos]
    norm_num
  have hr0 : (Q ceInput).get? 0 = some [0, 138/100] := by
    rw [get?_eq_some_getD [] (by omega), ce_Q_row0]
  rw [scores_eq _ ce_tokens_pos, matMul_row _ _ hQlen hKTlen 0 [0, 138/100] hr0]
  rw [show ((transposeJS (K ceInput)).headD []).length = 6 from by
    rw [KT_headD_length _ ce_tokens_pos, ce_tokens_length]]
  refine List.eq_replicate.mpr ⟨by simp, ?_⟩
  intro b hb
  obtain ⟨j, hj, rfl⟩ := List.mem_map.mp hb
  rw [List.mem_range] at hj
  have hdot : dotRow [0, 138/100] (transposeJS (K ceInput)) j = 2346/10000 := by
    unfold dotRow
    rw [KT_length _ ce_tokens_pos]
    rw [Finset.sum_range_succ, Finset.sum_range_succ, Finset.sum_range_zero]
    have hKT1 : (transposeJS (K ceInput)).getD 1 [] =
        (K ceInput).map (fun row => row.getD 1 0) := by
      apply getD_of_get?
      exact transposeJS_get? _ 1 (by rw [K_headD_length _ ce_tokens_pos]; norm_num)
    rw [hKT1, ce_K_col1]
    rw [show ((List.replicate 6 ((17:ℝ)/100)).getD j 0) = 17/100 from replicate_getD hj]
    norm_num
  rw [hdot, round2_eq (k := 23) (by norm_num) (by norm_num)]
  norm_num

theorem ce_scaled_row0 : (scaledScores ceInput).getD 0 [] =
    List.replicate 6 (round2 ((23/100) / Real.sqrt 2)) := by
  rw [scaledScores_eq _ ce_tokens_pos]
  apply getD_of_get?
  rw [List.get?_map,
    get?_eq_some_getD [] (by rw [scores_length _ ce_tokens_pos, ce_tokens_length]; norm_num),
    ce_scores_row0]
  rw [show Option.map (fun row => row.map (fun v => round2 (v / Real.sqrt 2)))
        (some (List.replicate 6 ((23:ℝ)/100))) =
      some ((List.replicate 6 ((23:ℝ)/100)).map (fun v => round2 (v / Real.sqrt 2))) from rfl,
    List.map_replicate]

theorem foldl_max_replicate (k : ℕ) (r : ℝ) : (List.replicate k r).foldl max r = r := by
  induction k with
  | zero => rfl
  | succ n ih => rw [List.replicate_succ, List.foldl_cons, max_self]; exact ih

theorem round3_sixth : round3 (1/6) = 167/1000 := by
  rw [round3_eq (k := 167) (by norm_num) (by norm_num)]
  norm_num

theorem softmax_replicate6 (r : ℝ) :
    softmax (List.replicate 6 r) = List.replicate 6 (round3 (1/6)) := by
  have h0 : List.replicate 6 r = r :: List.replicate 5 r := rfl
  rw [h0, softmax_cons, foldl_max_replicate]
  have hex : (r :: List.replicate 5 r).map (fun x => Real.exp (x - r)) =
      List.replicate 6 (1:ℝ) := by
    rw [← h0, List.map_replicate, sub_self, Real.exp_zero]
  rw [hex]
  have hsum : (List.replicate 6 (1:ℝ)).foldl (· + ·) 0 = 6 := by
    rw [foldl_add_eq, List.sum_replicate]
    norm_num
  rw [hsum, List.map_replicate]

theorem ce_attn_row0 : (attentionWeights ceInput).getD 0 [] = List.replicate 6 (167/1000) := by
  rw [attentionWeights_eq _ ce_tokens_pos]
  apply getD_of_get?
  rw [List.get?_map,
    get?_eq_some_getD []
      (by rw [scaledScores_length _ ce_tokens_pos, ce_tokens_length]; norm_num),
    ce_scaled_row0]
  rw [show Option.map softmax (some (List.replicate 6 (round2 ((23:ℝ)/100 / Real.sqrt 2)))) =
      some (softmax (List.replicate 6 (round2 ((23:ℝ)/100 / Real.sqrt 2)))) from rfl,
    softmax_replicate6, round3_sixth]

theorem ce_attn_row0_sum : ((attentionWeights ceInput).getD 0 []).sum = 1002/1000 := by
  rw [ce_attn_row0, List.sum_replicate]
  norm_num

/-! Lemmas about the NaN-faithful `matMulJS`. -/

theorem jsAdd_none_right (x : JsNum) : jsAdd x none = none := by
  cases x <;> rfl

theorem jsMul_none_left (y : JsNum) : jsMul none y = none := by
  cases y <;> rfl

theorem jsAdd_none_left (y : JsNum) : jsAdd none y = none := by
  cases y <;> rfl

theorem jsRound2n_idem (x : JsNum) : jsRound2n (jsRound2n x) = jsRound2n x := by
  cases x with
  | none => rfl
  | some r =>
    show some (round2 (round2 r)) = some (round2 r)
    rw [round2_idem]

theorem matMulJS_entry (A B : List (List JsNum)) (j : ℕ) (r : List JsNum) :
    ∀ (l : List ℕ) (acc : JsNum),
      acc = none ∨ (∃ k ∈ l, jsIdx r k = none) →
      l.foldl (fun acc k => jsAdd acc (jsMul (jsIdx r k) (jsIdx ((B.get? k).getD []) j)))
        acc = none := by
  intro l
  induction l with
  | nil =>
    intro acc h
    rcases h with h | ⟨k, hk, _⟩
    · exact h
    · simp at hk
  | cons a as ih =>
    intro acc h
    rw [List.foldl_cons]
    rcases h with h | ⟨k, hk, hnone⟩
    · exact ih _ (Or.inl (by rw [h, jsAdd_none_left]))
    · rcases List.mem_cons.mp hk with rfl | hk2
      · refine ih _ (Or.inl ?_)
        rw [hnone, jsMul_none_left, jsAdd_none_right]
      · exact ih _ (Or.inr ⟨k, hk2, hnone⟩)

theorem matMulJS_get? {A B : List (List JsNum)} (hA : A.length ≠ 0) (hB : B.length ≠ 0)
    (i : ℕ) :
    (matMulJS A B).get? i = (A.get? i).map (fun r =>
      (List.range (B.headD []).length).map (fun j =>
        jsRound2n ((List.range B.length).foldl
          (fun acc k => jsAdd acc (jsMul (jsIdx r k) (jsIdx ((B.get? k).getD []) j)))
          (some 0)))) := by
  unfold matMulJS
  rw [if_neg (by tauto), List.get?_map]

theorem matMulJS_eq_nil_iff (A B : List (List JsNum)) :
    matMulJS A B = [] ↔ A = [] ∨ B = [] := by
  unfold matMulJS
  split
  · rename_i h
    simp only [true_iff]
    rcases h with h | h
    · exact Or.inl (List.length_eq_zero.mp h)
    · exact Or.inr (List.length_eq_zero.mp h)
  · rename_i h
    push_neg at h
    constructor
    · intro hmap
      rw [List.map_eq_nil] at hmap
      exact absurd (by rw [hmap]; rfl) h.1
    · intro hor
      rcases hor with hor | hor
      · exact absurd (by rw [hor]; rfl) h.1
      · exact absurd (by rw [hor]; rfl) h.2

theorem matMulJS_length {A B : List (List JsNum)} (hA : A ≠ []) (hB : B ≠ []) :
    (matMulJS A B).length = A.length := by
  unfold matMulJS
  rw [if_neg (by push_neg; constructor <;> simpa [List.length_eq_zero])]
  simp

theorem matMulJS_row_shape {A B : List (List JsNum)} {row : List JsNum}
    (h : row ∈ matMulJS A B) :
    row.length = (B.headD []).length ∧ ∀ e ∈ row, jsRound2n e = e := by
  unfold matMulJS at h
  split at h
  · simp at h
  · obtain ⟨r, _, rfl⟩ := List.mem_map.mp h
    refine ⟨by simp, ?_⟩
    intro e he
    obtain ⟨j, _, rfl⟩ := List.mem_map.mp he
    exact jsRound2n_idem _

theorem matMulJS_mismatch_row {A B : List (List JsNum)} (hA : A.length ≠ 0)
    (hB : B.length ≠ 0) {i : ℕ} (hi : i < A.length)
    (hshort : (A.getD i []).length < B.length) :
    (matMulJS A B).getD i [] = List.replicate (B.headD []).length none := by
  obtain ⟨r, hr⟩ := get?_isSome_of_lt hi
  have hrD : A.getD i [] = r := getD_of_get? [] hr
  rw [hrD] at hshort
  have hrow : (matMulJS A B).getD i [] = (List.range (B.headD []).length).map (fun j =>
      jsRound2n ((List.range B.length).foldl
        (fun acc k => jsAdd acc (jsMul (jsIdx r k) (jsIdx ((B.get? k).getD []) j)))
        (some 0))) := by
    apply getD_of_get?
    rw [matMulJS_get? hA hB i, hr]
    rfl
  rw [hrow]
  refine List.eq_replicate.mpr ⟨by simp, ?_⟩
  intro b hb
  obtain ⟨j, _, rfl⟩ := List.mem_map.mp hb
  rw [matMulJS_entry A B j r (List.range B.length) (some 0)
    (Or.inr ⟨r.length, List.mem_range.mpr hshort, ?_⟩)]
  · rfl
  · unfold jsIdx
    rw [List.get?_eq_none.mpr (le_refl _)]
    rfl

/-! Evaluations for the embedder claims. -/

theorem hafz_eq {x : ℝ} {k : ℤ} (h0 : 0 ≤ x) (h1 : (k : ℝ) ≤ x * 100 + 1/2)
    (h2 : x * 100 + 1/2 < k + 1) : hafzRound2 x = (k : ℝ) / 100 := by
  unfold hafzRound2
  rw [if_pos h0, Int.floor_eq_iff.mpr ⟨h1, by exact_mod_cast h2⟩]

theorem embedRow_The : embedRow ['T', 'h', 'e'] 0 = [20/100, 100/100, 30/100, 40/100] := by
  unfold embedRow
  have hL : jsLength ['T', 'h', 'e'] = 3 := by decide
  have hC : jsCharCodeAt0 ['T', 'h', 'e'] % 10 = 4 := by decide
  rw [hL, hC]
  rw [show (((0:ℕ) : ℝ) * 0.5) = 0 by norm_num, show (((0:ℕ) : ℝ) * 0.3) = 0 by norm_num,
    Real.sin_zero, Real.cos_zero]
  rw [show ((0:ℝ) * 0.8 + 0.2) = 20/100 by norm_num, show ((1:ℝ) * 0.6 + 0.4) = 1 by norm_num,
    show (((3:ℕ):ℝ) * 0.1) = 30/100 by norm_num, show (((4:ℕ):ℝ) * 0.1) = 40/100 by norm_num]
  rw [round2_eq (x := (20:ℝ)/100) (k := 20) (by norm_num) (by norm_num),
    round2_eq (x := (1:ℝ)) (k := 100) (by norm_num) (by norm_num),
    round2_eq (x := (30:ℝ)/100) (k := 30) (by norm_num) (by norm_num),
    round2_eq (x := (40:ℝ)/100) (k := 40) (by norm_num) (by norm_num)]
  norm_num

theorem tokens_The :
    (tokens ("The cat sat on the mat".toList)).get? 0 = some ['T', 'h', 'e'] := by
  decide

theorem the_row0 : (embeddings (tokens ("The cat sat on the mat".toList))).get? 0 =
    some [20/100, 100/100, 30/100, 40/100] := by
  rw [embeddings_get? _ 0 (by decide), tokens_The]
  rw [show Option.map (fun t => embedRow t 0) (some ['T', 'h', 'e']) =
    some (embedRow ['T', 'h', 'e'] 0) from rfl]
  rw [embedRow_The]

theorem embedRow_emoji : embedRow emojiTok 0 = [20/100, 100/100, 20/100, 70/100] := by
  unfold embedRow
  have hL : jsLength emojiTok = 2 := by decide
  have hC : jsCharCodeAt0 emojiTok % 10 = 7 := by decide
  rw [hL, hC]
  rw [show (((0:ℕ) : ℝ) * 0.5) = 0 by norm_num, show (((0:ℕ) : ℝ) * 0.3) = 0 by norm_num,
    Real.sin_zero, Real.cos_zero]
  rw [show ((0:ℝ) * 0.8 + 0.2) = 20/100 by norm_num, show ((1:ℝ) * 0.6 + 0.4) = 1 by norm_num,
    show (((2:ℕ):ℝ) * 0.1) = 20/100 by norm_num, show (((7:ℕ):ℝ) * 0.1) = 70/100 by norm_num]
  rw [round2_eq (x := (20:ℝ)/100) (k := 20) (by norm_num) (by norm_num),
    round2_eq (x := (1:ℝ)) (k := 100) (by norm_num) (by norm_num),
    round2_eq (x := (70:ℝ)/100) (k := 70) (by norm_num) (by norm_num)]
  norm_num

theorem specEmbedRow_emoji : specEmbedRow emojiTok 0 = [20/100, 100/100, 10/100, 20/100] := by
  unfold specEmbedRow
  have hL : (emojiTok.length : ℝ) = 1 := by norm_num [emojiTok]
  have hC : (emojiTok.headD ' ').toNat % 10 = 2 := by decide
  rw [hL, hC]
  rw [show (((0:ℕ) : ℝ) * 0.5) = 0 by norm_num, show (((0:ℕ) : ℝ) * 0.3) = 0 by norm_num,
    Real.sin_zero, Real.cos_zero]
  rw [show ((0:ℝ) * 0.8 + 0.2) = 20/100 by norm_num, show ((1:ℝ) * 0.6 + 0.4) = 1 by norm_num,
    show ((1:ℝ) * 0.1) = 10/100 by norm_num, show (((2:ℕ):ℝ) * 0.1) = 20/100 by norm_num]
  rw [hafz_eq (x := (20:ℝ)/100) (k := 20) (by norm_num) (by norm_num) (by norm_num),
    hafz_eq (x := (1:ℝ)) (k := 100) (by norm_num) (by norm_num) (by norm_num),
    hafz_eq (x := (10:ℝ)/100) (k := 10) (by norm_num) (by norm_num) (by norm_num)]
  norm_num

theorem embeddings_emoji : embeddings [emojiTok] = [[20/100, 100/100, 20/100, 70/100]] := by
  unfold embeddings
  rw [if_pos (by norm_num)]
  rw [show embedAux 0 [emojiTok] = [embedRow emojiTok 0] from rfl, embedRow_emoji]

theorem getD_map {α β : Type} (f : α → β) {l : List α} {m : ℕ} (d : α) (e : β)
    (h : m < l.length) : (l.map f).getD m e = f (l.getD m d) := by
  obtain ⟨x, hx⟩ := get?_isSome_of_lt h
  rw [getD_of_get? e (by rw [List.get?_map, hx]; rfl), getD_of_get? d hx]

theorem softmax_single (r : ℝ) : softmax [r] = [1] := by
  rw [softmax_cons]
  simp only [List.foldl_nil, List.map_cons, List.map_nil, sub_self, Real.exp_zero,
    List.foldl_cons]
  rw [show ((1:ℝ)/(0 + 1)) = 1 by norm_num]
  rw [round3_eq (k := 1000) (by norm_num) (by norm_num)]
  norm_num

theorem attn_single (s : List Char) (h : (tokens s).length = 1) :
    attentionWeights s = [[1]] := by
  have hpos : 0 < (tokens s).length := by omega
  rw [attentionWeights_eq s hpos]
  have hlen : (scaledScores s).length = 1 := by rw [scaledScores_length s hpos, h]
  cases hs : scaledScores s with
  | nil => rw [hs] at hlen; simp at hlen
  | cons r0 rest =>
    have hrest : rest = [] := by
      rw [hs] at hlen
      simpa using hlen
    subst hrest
    have hr0 : r0.length = 1 := by
      have hm : r0 ∈ scaledScores s := by rw [hs]; exact List.mem_cons_self _ _
      rw [scaledScores_row_length hpos hm, h]
    obtain ⟨v, hv⟩ : ∃ v, r0 = [v] := by
      cases r0 with
      | nil => simp at hr0
      | cons a t =>
        cases t with
        | nil => exact ⟨a, rfl⟩
        | cons b u => simp at hr0
    subst hv
    rw [List.map_cons, List.map_nil, softmax_single]

/-! Agreement of the NaN-faithful model with the real-valued model on
well-shaped inputs: whenever every row of `A` is at least `B.length` long and
`B` is rectangular enough, no undefined read occurs and `matMulJS` computes
exactly `matMul`.  All pipeline multiplications satisfy these shapes, which
justifies using the `getD 0` model `matMul` for the pipeline. -/

theorem range_map_sum (h : ℕ → ℝ) (n : ℕ) :
    ((List.range n).map h).sum = ∑ k ∈ Finset.range n, h k := by
  induction n with
  | zero => simp
  | succ m ih => rw [List.range_succ, Finset.sum_range_succ, List.map_append, List.sum_append, ih]; simp

theorem foldl_add_map (h : ℕ → ℝ) (l : List ℕ) (a : ℝ) :
    l.foldl (fun acc k => acc + h k) a = a + (l.map h).sum := by
  induction l generalizing a with
  | nil => simp
  | cons x xs ih => rw [List.foldl_cons, ih, List.map_cons, List.sum_cons]; ring

theorem foldl_jsAdd_some (g : ℕ → JsNum) (h : ℕ → ℝ) (l : List ℕ)
    (hl : ∀ k ∈ l, g k = some (h k)) (a : ℝ) :
    l.foldl (fun acc k => jsAdd acc (g k)) (some a) =
      some (l.foldl (fun acc k => acc + h k) a) := by
  induction l generalizing a with
  | nil => rfl
  | cons x xs ih =>
    rw [List.foldl_cons, List.foldl_cons, hl x (List.mem_cons_self _ _)]
    exact ih (fun k hk => hl k (List.mem_cons_of_mem _ hk)) (a + h x)

theorem jsIdx_map_some (r : List ℝ) (k : ℕ) (h : k < r.length) :
    jsIdx (r.map some) k = some (r.getD k 0) := by
  unfold jsIdx
  rw [List.get?_map, get?_eq_some_getD 0 h]
  rfl

theorem matMulJS_agrees (A B : List (List ℝ))
    (hrow : ∀ r ∈ A, B.length ≤ r.length)
    (hrect : ∀ rb ∈ B, (B.headD []).length ≤ rb.length) :
    matMulJS (A.map (List.map some)) (B.map (List.map some)) =
      (matMul A B).map (List.map some) := by
  by_cases hz : A.length = 0 ∨ B.length = 0
  · unfold matMulJS matMul
    rw [if_pos (by simpa using hz), if_pos hz]
    rfl
  · push_neg at hz
    have hBne : B ≠ [] := by
      intro h
      exact hz.2 (by rw [h]; rfl)
    have hBhead : (B.map (List.map some)).headD [] = (B.headD []).map some := by
      cases B with
      | nil => exact absurd rfl hBne
      | cons b bs => rfl
    unfold matMulJS matMul
    rw [if_neg (by simpa using hz), if_neg (by simpa using hz), List.map_map, List.map_map]
    apply List.map_congr_left
    intro r hr
    simp only [Function.comp]
    have hlen : ((B.headD []).map (some : ℝ → JsNum)).length = (B.headD []).length :=
      List.length_map _ _
    rw [hBhead, hlen, List.map_map]
    apply List.map_congr_left
    intro j hj
    rw [List.mem_range] at hj
    simp only [Function.comp]
    have hterm : ∀ k ∈ List.range B.length,
        jsMul (jsIdx (r.map some) k) (jsIdx (((B.map (List.map some)).get? k).getD []) j) =
          some (r.getD k 0 * (B.getD k []).getD j 0) := by
      intro k hk
      rw [List.mem_range] at hk
      have hk2 : k < r.length := lt_of_lt_of_le hk (hrow r hr)
      have hBk : ((B.map (List.map some)).get? k).getD [] = (B.getD k []).map some := by
        rw [List.get?_map, get?_eq_some_getD [] hk]
        rfl
      have hjk : j < (B.getD k []).length := by
        have hmem : B.getD k [] ∈ B := by
          obtain ⟨x, hx⟩ := get?_isSome_of_lt hk
          rw [getD_of_get? [] hx]
          exact List.get?_mem hx
        exact lt_of_lt_of_le hj (hrect _ hmem)
      rw [jsIdx_map_some r k hk2, hBk, jsIdx_map_some _ j hjk]
      rfl
    have hBlen : ((B.map (List.map some)) : List (List JsNum)).length = B.length :=
      List.length_map _ _
    rw [hBlen,
      foldl_jsAdd_some _ (fun k => r.getD k 0 * (B.getD k []).getD j 0) _ hterm 0,
      foldl_add_map, range_map_sum]
    unfold jsRound2n dotRow
    rw [show ((0:ℝ) + ∑ k ∈ Finset.range B.length, r.getD k 0 * (B.getD k []).getD j 0) =
      ∑ k ∈ Finset.range B.length, r.getD k 0 * (B.getD k []).getD j 0 by ring]
    rfl

/-! The claims. -/

/-- C1 (amended): every row of the attention matrix has all entries in the
interval from 0 to 1, and its sum differs from 1 by at most the row length
times 5e-4 (one half-thousandth of per-entry rounding); the blanket 1e-3
tolerance of the original claim fails for longer near-uniform rows, see
`C1_counterexample`. -/
theorem C1_attention_rows (s : List Char) (row : List ℝ)
    (hrow : row ∈ attentionWeights s) :
    (∀ e ∈ row, 0 ≤ e ∧ e ≤ 1) ∧ |row.sum - 1| ≤ row.length * (1/2000) := by
  by_cases h : 0 < (tokens s).length
  · rw [attentionWeights_eq s h] at hrow
    obtain ⟨r, hr, rfl⟩ := List.mem_map.mp hrow
    have hrne : r ≠ [] := by
      intro he
      have hlen := scaledScores_row_length h hr
      rw [he] at hlen
      simp only [List.length_nil] at hlen
      omega
    have hb := softmax_bounds r hrne
    rw [softmax_length]
    exact hb
  · have hstages := stages_nil s (by omega)
    rw [hstages.2.2.2.2.2.2.1] at hrow
    simp at hrow

/-- C1 counterexample: on the six-token input `ceInput` the first query row is
exactly `[0, 1.38]` and every key row has second component 0.17, so the first
scaled-score row is constant; its softmax is six copies of
`round(1000/6)/1000 = 0.167`, and the row sums to 1.002, violating the
claimed 1e-3 tolerance. -/
theorem C1_ce_row_sum :
    tokens ceInput ≠ [] ∧
    (attentionWeights ceInput).getD 0 [] = List.replicate 6 (167/1000) ∧
    ((attentionWeights ceInput).getD 0 []).sum = 1002/1000 ∧
    ¬ (|((attentionWeights ceInput).getD 0 []).sum - 1| ≤ 1/1000) := by
  refine ⟨by rw [ce_tokens]; simp, ce_attn_row0, ce_attn_row0_sum, ?_⟩
  rw [ce_attn_row0_sum, show ((1002:ℝ)/1000 - 1) = 2/1000 by norm_num,
    abs_of_pos (by norm_num)]
  norm_num

/-- Witness for C1: for the single-token input `Hello` the attention matrix is
`[[1]]`, and the amended bound holds at its row. -/
theorem C1_attention_rows_witness :
    ([(1:ℝ)] ∈ attentionWeights ("Hello".toList)) ∧
    ((∀ e ∈ ([(1:ℝ)] : List ℝ), 0 ≤ e ∧ e ≤ 1) ∧
      |([(1:ℝ)] : List ℝ).sum - 1| ≤ ([(1:ℝ)] : List ℝ).length * (1/2000)) := by
  have hm : [(1:ℝ)] ∈ attentionWeights ("Hello".toList) := by
    rw [attn_single _ (by decide)]
    exact List.mem_singleton.mpr rfl
  exact ⟨hm, C1_attention_rows _ _ hm⟩

/-- C2 (amended): the embedder maps the token at position i to the stated
four-component formula, where the length is the UTF-16 code-unit count, the
first-character code is the first UTF-16 code unit (not the code point), and
each component is rounded at the hundredths digit half-up by `Math.round`,
which agrees with round-half-away-from-zero on all nonnegative inputs. -/
theorem C2_embedder (toks : List (List Char)) (i : ℕ) (h : i < toks.length) :
    (embeddings toks).get? i = some
      [round2 (Real.sin (i * 0.5) * 0.8 + 0.2),
       round2 (Real.cos (i * 0.3) * 0.6 + 0.4),
       round2 (jsLength (toks.getD i []) * 0.1),
       round2 (((jsCharCodeAt0 (toks.getD i []) % 10 : ℕ) : ℝ) * 0.1)] ∧
    ∀ x : ℝ, 0 ≤ x → round2 x = hafzRound2 x := by
  refine ⟨?_, fun x hx => round2_eq_hafz hx⟩
  rw [embeddings_get? toks i (by omega), get?_eq_some_getD [] h]
  rfl

/-- C2 counterexample: for the single astral token U+1F600 at position 0 the
code produces `[0.2, 1, 0.2, 0.7]` (UTF-16 length 2, first code unit 55357),
while the formula of the claim, read with the code point and the character
count, gives `[0.2, 1, 0.1, 0.2]`. -/
theorem C2_ce_emoji :
    embeddings [emojiTok] = [[20/100, 100/100, 20/100, 70/100]] ∧
    specEmbedRow emojiTok 0 = [20/100, 100/100, 10/100, 20/100] ∧
    ([[(20:ℝ)/100, 100/100, 20/100, 70/100]] : List (List ℝ)) ≠
      [[20/100, 100/100, 10/100, 20/100]] := by
  refine ⟨embeddings_emoji, specEmbedRow_emoji, ?_⟩
  intro h
  simp only [List.cons.injEq, and_true] at h
  have h2 := h.2.2.1
  norm_num at h2

/-- Witness for C2 at the one-token list `[a]` and position 0. -/
theorem C2_embedder_witness :
    (0 < ([['a']] : List (List Char)).length) ∧
    ((embeddings [['a']]).get? 0 = some
      [round2 (Real.sin ((0 : ℕ) * 0.5) * 0.8 + 0.2),
       round2 (Real.cos ((0 : ℕ) * 0.3) * 0.6 + 0.4),
       round2 (jsLength (([['a']] : List (List Char)).getD 0 []) * 0.1),
       round2 (((jsCharCodeAt0 (([['a']] : List (List Char)).getD 0 []) % 10 : ℕ) : ℝ) * 0.1)] ∧
    ∀ x : ℝ, 0 ≤ x → round2 x = hafzRound2 x) :=
  ⟨by norm_num, C2_embedder [['a']] 0 (by norm_num)⟩

/-- C3 (amended): on the input `The cat sat on the mat` the embedder maps
`The` at position 0 to exactly `[0.20, 1.00, 0.30, 0.40]` (T = 84, 84 mod 10
= 4, giving 0.40, not the 0.80 of the claim). -/
theorem C3_The_vector :
    (embeddings (tokens ("The cat sat on the mat".toList))).get? 0 =
      some [20/100, 100/100, 30/100, 40/100] :=
  the_row0

/-- C3 counterexample: the claimed vector ends in 0.80, but the code produces
0.40 there. -/
theorem C3_ce_The :
    (embeddings (tokens ("The cat sat on the mat".toList))).get? 0 =
      some [20/100, 100/100, 30/100, 40/100] ∧
    ¬ ((embeddings (tokens ("The cat sat on the mat".toList))).get? 0 =
      some [20/100, 100/100, 30/100, 80/100]) := by
  refine ⟨the_row0, ?_⟩
  intro h
  rw [the_row0] at h
  simp only [Option.some.injEq, List.cons.injEq, and_true] at h
  have h2 := h.2.2.2
  norm_num at h2

set_option maxHeartbeats 1600000 in
/-- C4: the scorer produces a seqLen × seqLen matrix; entry (i, j) is the dot
product of query row i against key row j over the dK = 2 coordinates rounded
to two decimals, and the scaled entry divides that already-rounded score by
√2 and rounds to two decimals again. -/
theorem C4_scorer (s : List Char) (i j : ℕ) (hi : i < (tokens s).length)
    (hj : j < (tokens s).length) :
    (scores s).length = (tokens s).length ∧
    (∀ row ∈ scores s, row.length = (tokens s).length) ∧
    ((scores s).getD i []).getD j 0 =
      round2 (∑ k ∈ Finset.range 2, ((Q s).getD i []).getD k 0 * ((K s).getD j []).getD k 0) ∧
    ((scaledScores s).getD i []).getD j 0 =
      round2 (((scores s).getD i []).getD j 0 / Real.sqrt 2) := by
  have hpos : 0 < (tokens s).length := by omega
  have hQl : (Q s).length ≠ 0 := by rw [Q_length s hpos]; omega
  have hKTl : (transposeJS (K s)).length ≠ 0 := by rw [KT_length s hpos]; omega
  refine ⟨scores_length s hpos, fun row hrow => scores_row_length hpos hrow, ?_, ?_⟩
  · rw [scores_eq s hpos,
      matMul_entry hQl hKTl (by rw [Q_length s hpos]; omega)
        (by rw [KT_headD_length s hpos]; omega)]
    congr 1
    unfold dotRow
    rw [KT_length s hpos]
    apply Finset.sum_congr rfl
    intro k hk
    rw [Finset.mem_range] at hk
    congr 1
    have hKTk : (transposeJS (K s)).getD k [] = (K s).map (fun row => row.getD k 0) := by
      apply getD_of_get?
      exact transposeJS_get? _ k (by rw [K_headD_length s hpos]; omega)
    rw [hKTk, getD_map _ [] 0 (by rw [K_length s hpos]; omega)]
  · rw [scaledScores_eq s hpos]
    have hi2 : i < (scores s).length := by rw [scores_length s hpos]; omega
    rw [getD_map (fun row => row.map (fun v => round2 (v / Real.sqrt 2))) [] [] hi2]
    have hj2 : j < ((scores s).getD i []).length := by
      have hmem : (scores s).getD i [] ∈ scores s := by
        obtain ⟨x, hx⟩ := get?_isSome_of_lt hi2
        rw [getD_of_get? [] hx]
        exact List.get?_mem hx
      rw [scores_row_length hpos hmem]
      omega
    rw [getD_map _ 0 0 hj2]

/-- Witness for C4 on the two-token input `a b` at (i, j) = (0, 1). -/
theorem C4_scorer_witness :
    (0 < (tokens ("a b".toList)).length ∧ 1 < (tokens ("a b".toList)).length) ∧
    ((scores ("a b".toList)).length = (tokens ("a b".toList)).length ∧
     (∀ row ∈ scores ("a b".toList), row.length = (tokens ("a b".toList)).length) ∧
     ((scores ("a b".toList)).getD 0 []).getD 1 0 =
       round2 (∑ k ∈ Finset.range 2,
         ((Q ("a b".toList)).getD 0 []).getD k 0 * ((K ("a b".toList)).getD 1 []).getD k 0) ∧
     ((scaledScores ("a b".toList)).getD 0 []).getD 1 0 =
       round2 (((scores ("a b".toList)).getD 0 []).getD 1 0 / Real.sqrt 2)) :=
  ⟨⟨by decide, by decide⟩, C4_scorer ("a b".toList) 0 1 (by decide) (by decide)⟩

/-- C5: the softmax row output is invariant under adding a constant to every
element of the input row (the row maximum shifts by the same constant, so the
exponentials, their sum and the rounded ratios are unchanged). -/
theorem C5_softmax_shift (x : List ℝ) (c : ℝ) :
    softmax (x.map (fun v => v + c)) = softmax x :=
  softmax_shift x c

/-- C6 (amended): every token returned by the tokenizer is nonempty and
contains no space character; the tokenizer splits on the space character
U+0020 only (after trimming), so other whitespace does not separate tokens,
see `C6_ce_tab`. -/
theorem C6_tokenizer (s t : List Char) (h : t ∈ tokens s) : t ≠ [] ∧ ' ' ∉ t :=
  tokens_mem h

/-- C6 counterexample: a tab does not separate tokens; the input `a TAB b`
yields the single token `a TAB b`, which contains the whitespace character
TAB, not the two tokens `a` and `b`. -/
theorem C6_ce_tab :
    tokens ['a', '\t', 'b'] = [['a', '\t', 'b']] ∧
    '\t' ∈ (['a', '\t', 'b'] : List Char) ∧ jsWhitespace '\t' = true ∧
    tokens ['a', '\t', 'b'] ≠ [['a'], ['b']] := by
  decide

/-- Witness for C6: the token `a` of the input `a b`. -/
theorem C6_tokenizer_witness :
    (['a'] ∈ tokens ['a', ' ', 'b']) ∧ (['a'] ≠ ([] : List Char) ∧ ' ' ∉ (['a'] : List Char)) :=
  ⟨by decide, C6_tokenizer ['a', ' ', 'b'] ['a'] (by decide)⟩

/-- C7: an input that is empty or all whitespace yields an empty token list,
and every derived stage is the empty matrix (the model is total, so no stage
can raise). -/
theorem C7_empty_input (s : List Char) (h : ∀ c ∈ s, jsWhitespace c = true) :
    tokens s = [] ∧ embeddings (tokens s) = [] ∧ Q s = [] ∧ K s = [] ∧ V s = [] ∧
    scores s = [] ∧ scaledScores s = [] ∧ attentionWeights s = [] ∧ output s = [] := by
  have ht := tokens_all_ws h
  have hst := stages_nil s (by rw [ht]; rfl)
  exact ⟨ht, hst.1, hst.2.1, hst.2.2.1, hst.2.2.2.1, hst.2.2.2.2.1, hst.2.2.2.2.2.1,
    hst.2.2.2.2.2.2.1, hst.2.2.2.2.2.2.2⟩

/-- Witness for C7 on the whitespace-only input `SPACE TAB U+3000`
(ideographic space; the final character is trimmed by JS but lies outside
the ASCII range). -/
theorem C7_empty_input_witness :
    (∀ c ∈ ([' ', '\t', Char.ofNat 12288] : List Char), jsWhitespace c = true) ∧
    (tokens [' ', '\t', Char.ofNat 12288] = [] ∧
     embeddings (tokens [' ', '\t', Char.ofNat 12288]) = [] ∧
     Q [' ', '\t', Char.ofNat 12288] = [] ∧ K [' ', '\t', Char.ofNat 12288] = [] ∧
     V [' ', '\t', Char.ofNat 12288] = [] ∧ scores [' ', '\t', Char.ofNat 12288] = [] ∧
     scaledScores [' ', '\t', Char.ofNat 12288] = [] ∧
     attentionWeights [' ', '\t', Char.ofNat 12288] = [] ∧
     output [' ', '\t', Char.ofNat 12288] = []) :=
  ⟨by decide, C7_empty_input [' ', '\t', Char.ofNat 12288] (by decide)⟩

/-- C8: the story generator returns the placeholder sentence exactly when
fewer than two valid ranked entries exist; otherwise the ranked list is a
permutation of the valid entries sorted by strictly descending weight with
ties broken by ascending original index, and the sentence is built from its
top two entries by the self/other template. -/
theorem C8_story (word : List Char) (toks : List (List Char)) (row : List ℚ) (i : ℕ) :
    (generateAttentionStory word toks row i = placeholderStory word ↔
      (validEntries toks row).length < 2) ∧
    (sortDesc (validEntries toks row)).Perm (validEntries toks row) ∧
    (sortDesc (validEntries toks row)).Pairwise storyOrd ∧
    (2 ≤ (validEntries toks row).length →
      ∃ a b rest, sortDesc (validEntries toks row) = a :: b :: rest ∧
        generateAttentionStory word toks row i =
          (if a.idx = i then selfStory word a b else otherStory word a b)) := by
  refine ⟨⟨?_, story_of_lt2 word toks row i⟩, sortDesc_perm _,
    sortDesc_pairwise (validEntries_idx_pairwise toks row), story_of_ge2 word toks row i⟩
  intro hst
  by_contra hge
  push_neg at hge
  obtain ⟨a, b, rest, hsd, heq⟩ := story_of_ge2 word toks row i hge
  rw [heq] at hst
  by_cases hidx : a.idx = i
  · rw [if_pos hidx] at hst
    exact selfStory_ne_placeholder word a b hst
  · rw [if_neg hidx] at hst
    exact otherStory_ne_placeholder word a b hst

/-- Witness for C8: a two-token list with two valid entries. -/
theorem C8_story_witness :
    (2 ≤ (validEntries [['t','h','e'], ['c','a','t']] [1/4, 3/4]).length) ∧
    (∃ a b rest,
      sortDesc (validEntries [['t','h','e'], ['c','a','t']] [1/4, 3/4]) = a :: b :: rest ∧
      generateAttentionStory ['c','a','t'] [['t','h','e'], ['c','a','t']] [1/4, 3/4] 1 =
        (if a.idx = 1 then selfStory ['c','a','t'] a b else otherStory ['c','a','t'] a b)) :=
  ⟨by decide,
    (C8_story ['c','a','t'] [['t','h','e'], ['c','a','t']] [1/4, 3/4] 1).2.2.2 (by decide)⟩

/-- C9 (amended): the matrix multiply performs no dimension validation and
never fails; when a row of A is shorter than B.length it silently returns a
full-shape matrix whose affected row consists entirely of NaN (modelled
`none`) entries. -/
theorem C9_no_validation (A B : List (List JsNum)) (hA : A ≠ []) (hB : B ≠ [])
    (i : ℕ) (hi : i < A.length) (hshort : (A.getD i []).length < B.length) :
    matMulJS A B ≠ [] ∧
    (matMulJS A B).getD i [] = List.replicate (B.headD []).length none := by
  refine ⟨?_, matMulJS_mismatch_row (by simpa [List.length_eq_zero] using hA)
    (by simpa [List.length_eq_zero] using hB) hi hshort⟩
  rw [Ne, matMulJS_eq_nil_iff]
  push_neg
  exact ⟨hA, hB⟩

/-- C9 counterexample: `matMul([[1]], [[1,2],[3,4]])` has mismatched inner
dimensions, yet the code silently returns the 1 × 2 matrix `[[NaN, NaN]]`
instead of failing fast. -/
theorem C9_ce_mismatch :
    matMulJS [[some 1]] [[some 1, some 2], [some 3, some 4]] = [[none, none]] ∧
    ([[none, none]] : List (List JsNum)) ≠ [] := by
  exact ⟨rfl, by simp⟩

/-- Witness for C9 at the concrete mismatched pair. -/
theorem C9_no_validation_witness :
    (matMulJS [[some 1]] [[some 1, some 2], [some 3, some 4]] ≠ [] ∧
     (matMulJS [[some 1]] [[some 1, some 2], [some 3, some 4]]).getD 0 [] =
       List.replicate (([[some (1:ℝ), some 2], [some 3, some 4]] :
         List (List JsNum)).headD []).length none) :=
  C9_no_validation [[some 1]] [[some 1, some 2], [some 3, some 4]]
    (by simp) (by simp) 0 (by simp) (by simp)

/-- C10: the matrix multiply is total; it returns the empty matrix exactly
when an operand is empty (equivalently its first row is missing), and
otherwise returns `A.length` rows of `B[0].length` entries, each already a
fixed point of two-decimal rounding (NaN entries stay NaN). -/
theorem C10_matMul_total (A B : List (List JsNum)) :
    (matMulJS A B = [] ↔ A = [] ∨ B = []) ∧
    (A ≠ [] → B ≠ [] → (matMulJS A B).length = A.length ∧
      ∀ row ∈ matMulJS A B, row.length = (B.headD []).length ∧
        ∀ e ∈ row, jsRound2n e = e) :=
  ⟨matMulJS_eq_nil_iff A B, fun hA hB =>
    ⟨matMulJS_length hA hB, fun _ hrow => matMulJS_row_shape hrow⟩⟩

/-- Witness for C10 at a one-by-one multiply. -/
theorem C10_matMul_total_witness :
    (matMulJS [[some 1]] [[some 2]]).length = ([[some (1:ℝ)]] : List (List JsNum)).length ∧
    ∀ row ∈ matMulJS [[some 1]] [[some 2]],
      row.length = (([[some (2:ℝ)]] : List (List JsNum)).headD []).length ∧
        ∀ e ∈ row, jsRound2n e = e :=
  (C10_matMul_total [[some 1]] [[some 2]]).2 (by simp) (by simp)

end AttentionViz
